import Mathlib

/-!
Verification of the session store and agentic continuation engine of the
lm-studio-mcp-server repository.

The development shallowly embeds the TypeScript source:

* `src/sessions.ts` — the in-memory session and tool-set store with TTL
  expiry (types `Session`, `ToolSet`, operations `createSession`,
  `getSession`, `getSessionInfo`, `appendMessage`, `deleteSession`,
  `listSessions`, `getSessionCount`, `cleanupExpiredSessions`,
  `maybeCleanup`, `registerToolSet`, `getToolSet`, `listToolSets`,
  `getToolSetCount`, `deleteToolSet`).
* `src/types.ts` — result envelope and error-code mapping
  (`ToolResult`, `successResult`, `errorResult`, `mapErrorCode`).
* `src/tools/act.ts` — the `act` continuation engine, its system-prompt
  builder `buildToolSystemPrompt`, tool-result formatter
  `formatToolResults`, and the response parser `parseToolCalls`.

Modelling conventions:

* JavaScript `Map` objects become association lists `List (String × α)`
  with insertion-order semantics (`mapFind`, `mapSet`, `mapDelete`).
* `Date.now()` becomes an explicit `now : Nat` argument, one per
  operation call (a single call reads a single instant).
* `randomUUID()` becomes a deterministic fresh-token generator driven by
  a counter carried in the store state; collision resistance is captured
  by the freshness invariant `SessFresh`.
* The model-serving backend is an explicit `Backend` record whose calls
  can throw (`Except.error` carries the thrown message).  Every backend
  invocation performed by `act` is logged in a trace list.
* JSON values are modelled by `JVal`; numbers keep their source lexeme
  since no verified property depends on numeric value.
-/

/-- Left brace character (written via code point to keep it out of string
literals). -/
def lbrace : Char := Char.ofNat 123

/-- Right brace character. -/
def rbrace : Char := Char.ofNat 125

/-- Backtick character. -/
def btick : Char := Char.ofNat 96

/-- Apostrophe character. -/
def apoC : Char := Char.ofNat 39

/-- Apostrophe as a one-character string. -/
def apoS : String := String.mk [apoC]

/-- ASCII whitespace recognised by the JavaScript regex class and by
`String.prototype.trim` (space, tab, newline, carriage return, vertical
tab, form feed).  Unicode space characters are out of scope. -/
def isReWs (c : Char) : Bool :=
  c.toNat == 32 || (9 ≤ c.toNat && c.toNat ≤ 13)

/-- Whitespace accepted between tokens by `JSON.parse` (JSON grammar:
space, tab, newline, carriage return). -/
def isJsonWs (c : Char) : Bool :=
  c.toNat == 32 || c.toNat == 9 || c.toNat == 10 || c.toNat == 13

/-- `String.prototype.trim` on the modelled character set. -/
def jsTrim (s : String) : String :=
  String.mk (((s.data.dropWhile isReWs).reverse.dropWhile isReWs).reverse)

/-- JavaScript truthiness of an optional string: `undefined` and the
empty string are falsy. -/
def strFalsy : Option String → Bool
  | none => true
  | some s => s == ""

-- ============ Association-list model of JavaScript Map ============

/-- `Map.get`: first (and, under key uniqueness, only) binding of `k`. -/
def mapFind (k : String) : List (String × α) → Option α
  | [] => none
  | (k', v) :: t => if k' = k then some v else mapFind k t

/-- `Map.set`: overwrite in place if the key is bound, else append. -/
def mapSet (k : String) (v : α) : List (String × α) → List (String × α)
  | [] => [(k, v)]
  | (k', v') :: t => if k' = k then (k, v) :: t else (k', v') :: mapSet k v t

/-- `Map.delete`: remove every binding of `k` (at most one under the key
uniqueness invariant maintained by `Map`). -/
def mapDelete (k : String) : List (String × α) → List (String × α)
  | [] => []
  | (k', v') :: t => if k' = k then mapDelete k t else (k', v') :: mapDelete k t

-- ============ JSON value model ============

/-- JSON values as produced by `JSON.parse`.  Numbers are kept as their
source lexeme: no verified property depends on numeric value. -/
inductive JVal where
  | null : JVal
  | bool : Bool → JVal
  | num : String → JVal
  | str : String → JVal
  | arr : List JVal → JVal
  | obj : List (String × JVal) → JVal

/-- JavaScript property read on a parsed object: later duplicate keys
win, missing keys give `none` (undefined). -/
def objGet (fs : List (String × JVal)) (k : String) : Option JVal :=
  ((fs.filter (fun p => p.1 == k)).getLast?).map (·.2)

-- ============ JSON.parse model ============

/-- Hexadecimal digit value. -/
def hexVal (c : Char) : Option Nat :=
  let n := c.toNat
  if 48 ≤ n ∧ n ≤ 57 then some (n - 48)
  else if 97 ≤ n ∧ n ≤ 102 then some (n - 87)
  else if 65 ≤ n ∧ n ≤ 70 then some (n - 55)
  else none

/-- Single-character JSON string escapes. -/
def escDecode : Char → Option Char
  | '"' => some '"'
  | '\\' => some '\\'
  | '/' => some '/'
  | 'b' => some (Char.ofNat 8)
  | 'f' => some (Char.ofNat 12)
  | 'n' => some '\n'
  | 'r' => some '\r'
  | 't' => some '\t'
  | _ => none

/-- JSON string body (after the opening quote): returns the decoded
characters and the remaining input.  Raw control characters are
rejected, as in `JSON.parse`. -/
def parseJStr : Nat → List Char → Option (List Char × List Char)
  | 0, _ => none
  | fuel + 1, cs =>
    match cs with
    | [] => none
    | c :: rest =>
      if c == '"' then some ([], rest)
      else if c == '\\' then
        match rest with
        | [] => none
        | e :: rest' =>
          if e == 'u' then
            match rest' with
            | a :: b :: c2 :: d :: rest'' =>
              match hexVal a, hexVal b, hexVal c2, hexVal d with
              | some ha, some hb, some hc, some hd =>
                (parseJStr fuel rest'').map
                  (fun p => (Char.ofNat (((ha * 16 + hb) * 16 + hc) * 16 + hd) :: p.1, p.2))
              | _, _, _, _ => none
            | _ => none
          else
            match escDecode e with
            | some ch => (parseJStr fuel rest').map (fun p => (ch :: p.1, p.2))
            | none => none
      else if c.toNat < 32 then none
      else (parseJStr fuel rest).map (fun p => (c :: p.1, p.2))

/-- Split a leading digit run. -/
def digitSpan (cs : List Char) : List Char × List Char :=
  (cs.takeWhile Char.isDigit, cs.dropWhile Char.isDigit)

/-- Fractional part of a JSON number lexeme. -/
def parseFracPart : List Char → Option (List Char × List Char)
  | '.' :: t =>
    let (ds, r) := digitSpan t
    if ds.isEmpty then none else some ('.' :: ds, r)
  | cs => some ([], cs)

/-- Exponent part of a JSON number lexeme. -/
def parseExpPart : List Char → Option (List Char × List Char)
  | [] => some ([], [])
  | c :: t =>
    if c == 'e' || c == 'E' then
      let (sg, t1) :=
        match t with
        | '+' :: u => (['+'], u)
        | '-' :: u => (['-'], u)
        | _ => (([] : List Char), t)
      let (ds, r) := digitSpan t1
      if ds.isEmpty then none else some (c :: (sg ++ ds), r)
    else some ([], c :: t)

/-- JSON number lexeme (strict JSON grammar: no leading zeros, optional
fraction and exponent). -/
def parseNumLex (cs : List Char) : Option (List Char × List Char) :=
  let (sgn, cs1) :=
    match cs with
    | '-' :: t => ((['-'] : List Char), t)
    | _ => ([], cs)
  match cs1 with
  | '0' :: t =>
    match parseFracPart t with
    | none => none
    | some (fr, r1) =>
      match parseExpPart r1 with
      | none => none
      | some (ex, r2) => some (sgn ++ '0' :: (fr ++ ex), r2)
  | c :: t =>
    if c.isDigit then
      let (ds, r0) := digitSpan (c :: t)
      match parseFracPart r0 with
      | none => none
      | some (fr, r1) =>
        match parseExpPart r1 with
        | none => none
        | some (ex, r2) => some (sgn ++ ds ++ fr ++ ex, r2)
    else none
  | [] => none

/-- Literal keyword match. -/
def expectLit (lit : List Char) (cs : List Char) : Option (List Char) :=
  if lit.isPrefixOf cs then some (cs.drop lit.length) else none

mutual

/-- Recursive-descent JSON value parser (fuel-bounded; the top-level
entry point supplies ample fuel, so fuel exhaustion is unreachable for
actual inputs). -/
def parseVal : Nat → List Char → Option (JVal × List Char)
  | 0, _ => none
  | fuel + 1, cs =>
    let cs := cs.dropWhile isJsonWs
    match cs with
    | [] => none
    | c :: rest =>
      if c == '"' then
        (parseJStr fuel rest).map (fun p => (JVal.str (String.mk p.1), p.2))
      else if c == lbrace then
        let r1 := rest.dropWhile isJsonWs
        match r1 with
        | c2 :: r2 =>
          if c2 == rbrace then some (JVal.obj [], r2)
          else
            (parseFields fuel r1).map (fun p => (JVal.obj p.1, p.2))
        | [] => none
      else if c == '[' then
        let r1 := rest.dropWhile isJsonWs
        match r1 with
        | c2 :: r2 =>
          if c2 == ']' then some (JVal.arr [], r2)
          else
            (parseElems fuel r1).map (fun p => (JVal.arr p.1, p.2))
        | [] => none
      else if c == 't' then
        (expectLit ['r', 'u', 'e'] rest).map (fun r => (JVal.bool true, r))
      else if c == 'f' then
        (expectLit ['a', 'l', 's', 'e'] rest).map (fun r => (JVal.bool false, r))
      else if c == 'n' then
        (expectLit ['u', 'l', 'l'] rest).map (fun r => (JVal.null, r))
      else
        (parseNumLex (c :: rest)).map (fun p => (JVal.num (String.mk p.1), p.2))

/-- Comma-separated array elements, ending at `]`. -/
def parseElems : Nat → List Char → Option (List JVal × List Char)
  | 0, _ => none
  | fuel + 1, cs =>
    match parseVal fuel cs with
    | none => none
    | some (v, r) =>
      match r.dropWhile isJsonWs with
      | ',' :: t =>
        (parseElems fuel t).map (fun p => (v :: p.1, p.2))
      | c :: t =>
        if c == ']' then some ([v], t) else none
      | [] => none

/-- Comma-separated object members, ending at the closing brace. -/
def parseFields : Nat → List Char → Option (List (String × JVal) × List Char)
  | 0, _ => none
  | fuel + 1, cs =>
    match cs.dropWhile isJsonWs with
    | c :: rest =>
      if c == '"' then
        match parseJStr fuel rest with
        | none => none
        | some (key, r1) =>
          match r1.dropWhile isJsonWs with
          | ':' :: r2 =>
            match parseVal fuel r2 with
            | none => none
            | some (v, r3) =>
              match r3.dropWhile isJsonWs with
              | ',' :: r4 =>
                (parseFields fuel r4).map
                  (fun p => ((String.mk key, v) :: p.1, p.2))
              | c2 :: r4 =>
                if c2 == rbrace then some ([(String.mk key, v)], r4) else none
              | [] => none
          | _ => none
      else none
    | [] => none

end

/-- `JSON.parse`: parse one value and require only whitespace after it;
any failure is reported as `none` (a thrown `SyntaxError` in JS). -/
def jsonParse (s : String) : Option JVal :=
  match parseVal (2 * s.data.length + 8) s.data with
  | some (v, rest) => if (rest.dropWhile isJsonWs).isEmpty then some v else none
  | none => none

-- ============ Tool-call extraction (parseToolCalls) ============

/-- Tool call request mapped from model output (`name`/`arguments`
property reads; `none` models JavaScript `undefined`). -/
structure ToolCallRequest where
  name : Option JVal
  arguments : Option JVal

/-- Map one element of a `tool_calls` array.  A `null` element makes the
property read throw in JS, aborting the strategy (`none`); other
non-object values give undefined properties. -/
def tcOfJVal : JVal → Option ToolCallRequest
  | JVal.null => none
  | JVal.obj fs => some ⟨objGet fs "name", objGet fs "arguments"⟩
  | _ => some ⟨none, none⟩

/-- One parse strategy: succeed only when the parsed value has a
`tool_calls` property holding an array and every element maps cleanly. -/
def tryToolCalls : JVal → Option (List ToolCallRequest)
  | JVal.obj fs =>
    match objGet fs "tool_calls" with
    | some (JVal.arr xs) => xs.mapM tcOfJVal
    | _ => none
  | _ => none

-- Fenced code block search, modelling the JS regex
-- ```(?:json)?\s*(\{[\s\S]*?\})\s*``` with leftmost-match and lazy
-- group semantics.

/-- Does a closing fence (after optional whitespace) start here? -/
def fenceFollows (cs : List Char) : Bool :=
  [btick, btick, btick].isPrefixOf (cs.dropWhile isReWs)

/-- Lazy capture after the opening brace: the shortest body ending at a
closing brace that is followed by a closing fence. -/
def lazyBody : List Char → Option (List Char)
  | [] => none
  | c :: rest =>
    if c == rbrace && fenceFollows rest then some [rbrace]
    else
      match lazyBody rest with
      | some g => some (c :: g)
      | none => none

/-- After the fence header: skip whitespace, require an opening brace,
then capture lazily. -/
def fenceGroup (r : List Char) : Option (List Char) :=
  match r.dropWhile isReWs with
  | c :: t => if c == lbrace then (lazyBody t).map (fun g => lbrace :: g) else none
  | [] => none

/-- Try to match the whole fence pattern at this exact position,
including the backtracking on the optional `json` tag. -/
def fenceBodyAt (cs : List Char) : Option (List Char) :=
  match expectLit [btick, btick, btick] cs with
  | none => none
  | some r1 =>
    match
      (match expectLit ['j', 's', 'o', 'n'] r1 with
       | some r2 => fenceGroup r2
       | none => none)
    with
    | some g => some g
    | none => fenceGroup r1

/-- Leftmost match: try each start position in order. -/
def fenceScan : List Char → Option (List Char)
  | [] => none
  | c :: rest =>
    match fenceBodyAt (c :: rest) with
    | some g => some g
    | none => fenceScan rest

/-- `parseToolCalls` from `src/tools/act.ts`: trim, try the whole text
as JSON, then try the first fenced code block; `null` means no tool
calls (final answer).  Thrown JSON errors are swallowed by the source's
`try` blocks, which the `Option` plumbing models. -/
def parseToolCalls (text : String) : Option (List ToolCallRequest) :=
  let trimmed := jsTrim text
  match
    (match jsonParse trimmed with
     | some v => tryToolCalls v
     | none => none)
  with
  | some l => some l
  | none =>
    match fenceScan trimmed.data with
    | some g =>
      match jsonParse (String.mk g) with
      | some v => tryToolCalls v
      | none => none
    | none => none

-- ============ JSON.stringify model (used by the prompt builder) ============

/-- Lower-case hexadecimal digit. -/
def hexDigit (n : Nat) : Char :=
  if n < 10 then Char.ofNat ('0'.toNat + n) else Char.ofNat ('a'.toNat + n - 10)

/-- `JSON.stringify` escaping for one string character. -/
def escJChar (c : Char) : List Char :=
  if c == '"' then ['\\', '"']
  else if c == '\\' then ['\\', '\\']
  else if c == '\n' then ['\\', 'n']
  else if c == '\r' then ['\\', 'r']
  else if c == '\t' then ['\\', 't']
  else if c == Char.ofNat 8 then ['\\', 'b']
  else if c == Char.ofNat 12 then ['\\', 'f']
  else if c.toNat < 32 then
    ['\\', 'u', '0', '0', hexDigit (c.toNat / 16), hexDigit (c.toNat % 16)]
  else [c]

/-- Quote and escape a string for `JSON.stringify`. -/
def jStrQuote (s : String) : String :=
  String.mk ('"' :: s.data.foldr (fun c acc => escJChar c ++ acc) ['"'])

mutual

/-- `JSON.stringify` on the `JVal` model. -/
def jStringify : JVal → String
  | JVal.null => "null"
  | JVal.bool true => "true"
  | JVal.bool false => "false"
  | JVal.num lx => lx
  | JVal.str s => jStrQuote s
  | JVal.arr xs => "[" ++ jStringifyArr xs ++ "]"
  | JVal.obj fs => String.mk [lbrace] ++ jStringifyObj fs ++ String.mk [rbrace]

/-- Array elements, comma separated. -/
def jStringifyArr : List JVal → String
  | [] => ""
  | [x] => jStringify x
  | x :: y :: t => jStringify x ++ "," ++ jStringifyArr (y :: t)

/-- Object members, comma separated. -/
def jStringifyObj : List (String × JVal) → String
  | [] => ""
  | [(k, v)] => jStrQuote k ++ ":" ++ jStringify v
  | (k, v) :: y :: t => jStrQuote k ++ ":" ++ jStringify v ++ "," ++ jStringifyObj (y :: t)

end

-- ============ Session store (src/sessions.ts) ============

/-- Message roles. -/
inductive Role where
  | system : Role
  | user : Role
  | assistant : Role
deriving DecidableEq

/-- Message in conversation history. -/
structure ChatMessage where
  role : Role
  content : String
deriving DecidableEq

/-- Tool schema definition for session storage. -/
structure ToolSchema where
  name : String
  description : Option String
  parameters : Option JVal

/-- Session state stored server-side. -/
structure Session where
  id : String
  messages : List ChatMessage
  tools : List ToolSchema
  modelId : String
  createdAt : Nat
  lastAccessedAt : Nat

/-- Session info returned to callers (excludes full message history). -/
structure SessionInfo where
  sessionId : String
  modelId : String
  messageCount : Nat
  toolCount : Nat
  createdAt : Nat
  lastAccessedAt : Nat
  ttlRemainingMs : Nat

/-- Cached tool set for reuse across sessions. -/
structure ToolSet where
  id : String
  tools : List ToolSchema
  createdAt : Nat
  lastAccessedAt : Nat

/-- Module-level mutable state of `src/sessions.ts`: the two `Map`s, the
last-sweep timestamp, and the counter driving the fresh-id model of
`randomUUID`. -/
structure StoreState where
  sessions : List (String × Session)
  toolSets : List (String × ToolSet)
  lastCleanup : Nat
  nextId : Nat

/-- Session TTL: 30 minutes. -/
def SESSION_TTL_MS : Nat := 30 * 60 * 1000

/-- Cleanup interval: 5 minutes. -/
def CLEANUP_INTERVAL_MS : Nat := 5 * 60 * 1000

/-- Deterministic model of `randomUUID`: an opaque token determined by
the store counter.  Distinct counters give distinct tokens, which is the
collision-resistance assumption. -/
def idGen (n : Nat) : String :=
  String.mk (List.replicate n 's')

/-- `cleanupExpiredSessions`: drop every session and tool-set record
older than the TTL, returning the new state and the removed count. -/
def cleanupExpiredSessions (now : Nat) (st : StoreState) : StoreState × Nat :=
  let keptS := st.sessions.filter (fun p => !(decide (now - p.2.lastAccessedAt > SESSION_TTL_MS)))
  let keptT := st.toolSets.filter (fun p => !(decide (now - p.2.lastAccessedAt > SESSION_TTL_MS)))
  ({ st with sessions := keptS, toolSets := keptT },
   (st.sessions.length - keptS.length) + (st.toolSets.length - keptT.length))

/-- `maybeCleanup`: run the sweep when more than the cleanup interval has
elapsed since the last one. -/
def maybeCleanup (now : Nat) (st : StoreState) : StoreState :=
  if now - st.lastCleanup > CLEANUP_INTERVAL_MS then
    { (cleanupExpiredSessions now st).1 with lastCleanup := now }
  else st

/-- Initial message log of a fresh session: seeded with one system
message when the prompt is present and truthy (JS: an empty prompt
string adds nothing). -/
def initMessages : Option String → List ChatMessage
  | some p => if p == "" then [] else [⟨Role.system, p⟩]
  | none => []

/-- `createSession`: fresh id, empty log optionally seeded with a system
message. -/
def createSession (modelId : String) (tools : List ToolSchema)
    (systemPrompt : Option String) (now : Nat) (st : StoreState) :
    Session × StoreState :=
  let st := maybeCleanup now st
  let session : Session :=
    { id := idGen st.nextId
      messages := initMessages systemPrompt
      tools := tools
      modelId := modelId
      createdAt := now
      lastAccessedAt := now }
  (session,
   { st with sessions := mapSet session.id session st.sessions,
             nextId := st.nextId + 1 })

/-- `getSession`: absent if unknown or expired (expiry deletes the
record); otherwise refresh `lastAccessedAt` and return the session. -/
def getSession (id : String) (now : Nat) (st : StoreState) :
    Option Session × StoreState :=
  let st := maybeCleanup now st
  match mapFind id st.sessions with
  | none => (none, st)
  | some session =>
    if now - session.lastAccessedAt > SESSION_TTL_MS then
      (none, { st with sessions := mapDelete id st.sessions })
    else
      let session' := { session with lastAccessedAt := now }
      (some session', { st with sessions := mapSet id session' st.sessions })

/-- `getSessionInfo`: `getSession` plus projection to a summary. -/
def getSessionInfo (id : String) (now : Nat) (st : StoreState) :
    Option SessionInfo × StoreState :=
  match getSession id now st with
  | (none, st') => (none, st')
  | (some session, st') =>
    (some { sessionId := session.id
            modelId := session.modelId
            messageCount := session.messages.length
            toolCount := session.tools.length
            createdAt := session.createdAt
            lastAccessedAt := session.lastAccessedAt
            ttlRemainingMs := SESSION_TTL_MS - (now - session.lastAccessedAt) },
     st')

/-- `appendMessage`: liveness-checked lookup, then push to the log and
refresh the access time. -/
def appendMessage (id : String) (message : ChatMessage) (now : Nat)
    (st : StoreState) : Bool × StoreState :=
  match getSession id now st with
  | (none, st') => (false, st')
  | (some session, st') =>
    let session' :=
      { session with messages := session.messages ++ [message],
                     lastAccessedAt := now }
    (true, { st' with sessions := mapSet id session' st'.sessions })

/-- `deleteSession`: unconditional removal; reports physical presence. -/
def deleteSession (id : String) (st : StoreState) : Bool × StoreState :=
  ((mapFind id st.sessions).isSome,
   { st with sessions := mapDelete id st.sessions })

/-- `listSessions`. -/
def listSessions (now : Nat) (st : StoreState) : List String × StoreState :=
  let st := maybeCleanup now st
  (st.sessions.map Prod.fst, st)

/-- `getSessionCount`. -/
def getSessionCount (now : Nat) (st : StoreState) : Nat × StoreState :=
  let st := maybeCleanup now st
  (st.sessions.length, st)

/-- `getSessionTTL`. -/
def getSessionTTL : Nat := SESSION_TTL_MS

/-- `registerToolSet`: caller-supplied or generated id, full overwrite.
Note: no `maybeCleanup` call in the source. -/
def registerToolSet (tools : List ToolSchema) (id : Option String)
    (now : Nat) (st : StoreState) : ToolSet × StoreState :=
  let useGen := strFalsy id
  let toolSetId := if useGen then idGen st.nextId else id.getD ""
  let toolSet : ToolSet :=
    { id := toolSetId, tools := tools, createdAt := now, lastAccessedAt := now }
  (toolSet,
   { st with toolSets := mapSet toolSetId toolSet st.toolSets,
             nextId := if useGen then st.nextId + 1 else st.nextId })

/-- `getToolSet`: per-record TTL check with refresh, deleting on expiry.
Note: no `maybeCleanup` call in the source. -/
def getToolSet (id : String) (now : Nat) (st : StoreState) :
    Option ToolSet × StoreState :=
  match mapFind id st.toolSets with
  | none => (none, st)
  | some toolSet =>
    if now - toolSet.lastAccessedAt > SESSION_TTL_MS then
      (none, { st with toolSets := mapDelete id st.toolSets })
    else
      let toolSet' := { toolSet with lastAccessedAt := now }
      (some toolSet', { st with toolSets := mapSet id toolSet' st.toolSets })

/-- `deleteToolSet`. -/
def deleteToolSet (id : String) (st : StoreState) : Bool × StoreState :=
  ((mapFind id st.toolSets).isSome,
   { st with toolSets := mapDelete id st.toolSets })

/-- `listToolSets`.  Note: no `maybeCleanup` call in the source. -/
def listToolSets (st : StoreState) : List String :=
  st.toolSets.map Prod.fst

/-- `getToolSetCount`.  Note: no `maybeCleanup` call in the source. -/
def getToolSetCount (st : StoreState) : Nat :=
  st.toolSets.length

-- ============ Result envelope and error codes (src/types.ts) ============

/-- Standard error codes for tool operations. -/
inductive ErrorCode where
  | MODEL_NOT_FOUND : ErrorCode
  | MODEL_NOT_LOADED : ErrorCode
  | CONNECTION_FAILED : ErrorCode
  | INVALID_INPUT : ErrorCode
  | LOAD_FAILED : ErrorCode
  | UNLOAD_FAILED : ErrorCode
  | UNKNOWN : ErrorCode
deriving DecidableEq

/-- Standard error shape for tool failures. -/
structure ToolError where
  code : ErrorCode
  message : String
deriving DecidableEq

/-- Standard result envelope for all tool operations. -/
structure ToolResult (α : Type) where
  success : Bool
  message : String
  data : Option α
  error : Option ToolError

/-- Helper to create a successful result. -/
def successResult (message : String) (data : Option α) : ToolResult α :=
  { success := true, message := message, data := data, error := none }

/-- Helper to create an error result. -/
def errorResult (message : String) (code : ErrorCode)
    (errorMessage : Option String) : ToolResult α :=
  { success := false, message := message, data := none,
    error := some { code := code, message := errorMessage.getD message } }

/-- Substring test (JavaScript `String.prototype.includes`). -/
def listInfix (needle : List Char) : List Char → Bool
  | [] => needle.isEmpty
  | c :: t => needle.isPrefixOf (c :: t) || listInfix needle t

/-- `hay.includes(needle)`. -/
def strIncludes (hay needle : String) : Bool :=
  listInfix needle.data hay.data

/-- Map common SDK error messages to error codes (thrown errors are
modelled as their message string). -/
def mapErrorCode (errMsg : String) : ErrorCode :=
  let message := errMsg.toLower
  if strIncludes message "not found" || strIncludes message "no loaded model" then
    ErrorCode.MODEL_NOT_LOADED
  else if strIncludes message "connect" || strIncludes message "econnrefused" ||
      strIncludes message "websocket" then
    ErrorCode.CONNECTION_FAILED
  else if strIncludes message "invalid" || strIncludes message "validation" then
    ErrorCode.INVALID_INPUT
  else
    ErrorCode.UNKNOWN

-- ============ The act tool (src/tools/act.ts) ============

/-- Tool result from parent execution (`toolResultZ`). -/
structure ToolResultIn where
  name : String
  result : String

/-- Input accepted by the act tool (after zod validation). -/
structure ActInput where
  sessionId : Option String
  identifier : Option String
  task : Option String
  tools : Option (List ToolSchema)
  toolResults : Option (List ToolResultIn)
  maxTokens : Option Nat

/-- Response stats for tracking without full content. -/
structure ResponseStats where
  messageCount : Nat
  responseLength : Nat
deriving DecidableEq

/-- Output data of the act tool. -/
structure ActData where
  sessionId : String
  done : Bool
  response : Option String
  toolCalls : Option (List ToolCallRequest)
  stats : Option ResponseStats

/-- One line of the tool enumeration in the system prompt (JS truthiness
skips empty descriptions and null parameter records). -/
def toolDescLine (t : ToolSchema) : String :=
  let d := "- " ++ t.name
  let d := if strFalsy t.description then d else d ++ ": " ++ t.description.getD ""
  match t.parameters with
  | some JVal.null => d
  | some ps => d ++ "\n  Parameters: " ++ jStringify ps
  | none => d

/-- Build system prompt with tool definitions. -/
def buildToolSystemPrompt (tools : List ToolSchema) : String :=
  let toolDescriptions := String.intercalate "\n" (tools.map toolDescLine)
  let sLB := String.mk [lbrace]
  let sRB := String.mk [rbrace]
  "You have access to the following tools:\n\n" ++ toolDescriptions ++
  "\n\nWhen you need to use a tool, respond ONLY with a JSON object in this exact format (no other text):\n" ++
  sLB ++ "\"tool_calls\": [" ++ sLB ++ "\"name\": \"tool_name\", \"arguments\": " ++
  sLB ++ "\"arg1\": \"value1\"" ++ sRB ++ sRB ++ "]" ++ sRB ++
  "\n\nWhen you have completed the task or don" ++ apoS ++
  "t need tools, respond with your normal answer.\nDo not explain that you" ++ apoS ++
  "re going to use a tool - just output the JSON or your final answer."

/-- Format tool results as a compact message. -/
def formatToolResults (toolResults : List ToolResultIn) : String :=
  String.intercalate "\n" (toolResults.map (fun r => "[" ++ r.name ++ "]: " ++ r.result))

/-- A backend invocation recorded in the trace. -/
inductive BackendCall where
  | getModelInfo (identifier : String) : BackendCall
  | respond (identifier : String) (messages : List ChatMessage) (maxTokens : Nat) : BackendCall

/-- The model-serving backend as seen by `act`: `getModelInfo` for the
liveness probe and `respond` for generation.  `Except.error` carries the
message of a thrown exception (client construction and connection
failures are folded into `getModelInfo`, the first awaited call of the
`try` block). -/
structure Backend where
  getModelInfo : String → Except String (Option Unit)
  respond : String → List ChatMessage → Nat → Except String String

/-- Effective token limit: `input.maxTokens || 2048` (JS `||`, so an
explicit 0 also falls back, though the zod schema forbids it). -/
def effMaxTokens : Option Nat → Nat
  | some n => if n = 0 then 2048 else n
  | none => 2048

/-- Shared execution path of `act` once a session is established
(the `try` block of the source).  `session` is the in-memory object the
source aliases; the store is threaded explicitly.  Returns the result
envelope, the final store, and the trace of backend invocations. -/
def actShared (b : Backend) (isNewSession : Bool) (session : Session)
    (maxTokens : Option Nat) (now : Nat) (st : StoreState) :
    ToolResult ActData × StoreState × List BackendCall :=
  match b.getModelInfo session.modelId with
  | Except.error msg =>
    let st' := if isNewSession then (deleteSession session.id st).2 else st
    (errorResult "Failed to run task" (mapErrorCode msg) (some msg), st',
     [BackendCall.getModelInfo session.modelId])
  | Except.ok none =>
    let st' := if isNewSession then (deleteSession session.id st).2 else st
    (errorResult ("Model " ++ apoS ++ session.modelId ++ apoS ++ " not found or not loaded")
       ErrorCode.MODEL_NOT_LOADED (some "Model not loaded"), st',
     [BackendCall.getModelInfo session.modelId])
  | Except.ok (some _) =>
    let mtv := effMaxTokens maxTokens
    match b.respond session.modelId session.messages mtv with
    | Except.error msg =>
      let st' := if isNewSession then (deleteSession session.id st).2 else st
      (errorResult "Failed to run task" (mapErrorCode msg) (some msg), st',
       [BackendCall.getModelInfo session.modelId,
        BackendCall.respond session.modelId session.messages mtv])
    | Except.ok content =>
      let responseText := jsTrim content
      let ap := appendMessage session.id ⟨Role.assistant, responseText⟩ now st
      let messagesNow :=
        if ap.1 then session.messages ++ [⟨Role.assistant, responseText⟩]
        else session.messages
      let calls := [BackendCall.getModelInfo session.modelId,
                    BackendCall.respond session.modelId session.messages mtv]
      match parseToolCalls responseText with
      | some (tc :: tcs) =>
        (successResult "Model requested tool calls"
          (some { sessionId := session.id, done := false, response := none,
                  toolCalls := some (tc :: tcs),
                  stats := some ⟨messagesNow.length, responseText.length⟩ }),
         ap.2, calls)
      | _ =>
        (successResult "Task completed"
          (some { sessionId := session.id, done := true, response := none,
                  toolCalls := none,
                  stats := some ⟨messagesNow.length, responseText.length⟩ }),
         ap.2, calls)

/-- The act tool: resolve or create a session, then run the shared
execution path. -/
def act (b : Backend) (input : ActInput) (now : Nat) (st : StoreState) :
    ToolResult ActData × StoreState × List BackendCall :=
  match input.sessionId with
  | some sid =>
    match getSession sid now st with
    | (none, st1) =>
      (errorResult "Session not found or expired" ErrorCode.INVALID_INPUT
        (some ("Session " ++ apoS ++ sid ++ apoS ++ " does not exist or has expired")),
       st1, [])
    | (some session, st1) =>
      match input.toolResults with
      | some (tr :: trs) =>
        let m : ChatMessage := ⟨Role.user, formatToolResults (tr :: trs)⟩
        let ap := appendMessage session.id m now st1
        let session' :=
          if ap.1 then
            { session with messages := session.messages ++ [m], lastAccessedAt := now }
          else session
        actShared b false session' input.maxTokens now ap.2
      | _ => actShared b false session input.maxTokens now st1
  | none =>
    if strFalsy input.identifier then
      (errorResult "Model identifier required for new session" ErrorCode.INVALID_INPUT
        (some ("Provide " ++ apoS ++ "identifier" ++ apoS ++ " when starting a new session")),
       st, [])
    else if strFalsy input.task then
      (errorResult "Task required for new session" ErrorCode.INVALID_INPUT
        (some ("Provide " ++ apoS ++ "task" ++ apoS ++ " when starting a new session")),
       st, [])
    else
      let tools := input.tools.getD []
      let systemPrompt :=
        if tools.length > 0 then some (buildToolSystemPrompt tools) else none
      let cr := createSession (input.identifier.getD "") tools systemPrompt now st
      let session := cr.1
      let tmsg : ChatMessage := ⟨Role.user, input.task.getD ""⟩
      let ap := appendMessage session.id tmsg now cr.2
      let session' :=
        if ap.1 then
          { session with messages := session.messages ++ [tmsg], lastAccessedAt := now }
        else session
      actShared b true session' input.maxTokens now ap.2

/-- The session record built by the new-task entry of `act`: system
prompt synthesized iff the tool list is non-empty, then the task text
appended as the first user message. -/
def newTaskSession (input : ActInput) (now : Nat) (n : Nat) : Session :=
  { id := idGen n
    messages := initMessages
        (if (input.tools.getD []).length > 0
         then some (buildToolSystemPrompt (input.tools.getD [])) else none)
      ++ [⟨Role.user, input.task.getD ""⟩]
    tools := input.tools.getD []
    modelId := input.identifier.getD ""
    createdAt := now
    lastAccessedAt := now }

/-- The optional tool-results message appended by a resume call. -/
def trMessages : Option (List ToolResultIn) → List ChatMessage
  | some (tr :: trs) => [⟨Role.user, formatToolResults (tr :: trs)⟩]
  | _ => []

/-- No record in either store is past its TTL at instant `now`. -/
def AllLive (now : Nat) (st : StoreState) : Prop :=
  (∀ p ∈ st.sessions, now - p.2.lastAccessedAt ≤ SESSION_TTL_MS) ∧
  (∀ p ∈ st.toolSets, now - p.2.lastAccessedAt ≤ SESSION_TTL_MS)

-- ============ Failure model and concrete fixtures ============

/-- The backend fails during the call for model `id`: the liveness probe
throws, or reports the model absent, or the probe succeeds and the
respond call throws (whatever the transcript). -/
def failingBackend (b : Backend) (id : String) : Prop :=
  (∃ m, b.getModelInfo id = Except.error m) ∨
  b.getModelInfo id = Except.ok none ∨
  ((∃ u, b.getModelInfo id = Except.ok (some u)) ∧
    ∀ msgs mt, ∃ m, b.respond id msgs mt = Except.error m)

/-- Empty store fixture for concrete scenarios. -/
def emptyStore : StoreState :=
  { sessions := [], toolSets := [], lastCleanup := 0, nextId := 0 }

/-- Store fixture holding one live session under the first generated id. -/
def liveStore : StoreState :=
  { sessions := [(idGen 0,
      { id := idGen 0, messages := [], tools := [], modelId := "m",
        createdAt := 0, lastAccessedAt := 0 })]
    toolSets := [], lastCleanup := 0, nextId := 1 }

/-- The weather tool of end-to-end scenario 2. -/
def weatherTool : ToolSchema :=
  { name := "get_weather", description := none, parameters := none }

/-- Backend reply requesting a `get_weather` tool call. -/
def toolCallJson : String :=
  "\x7b\"tool_calls\":[\x7b\"name\":\"get_weather\",\"arguments\":\x7b\"city\":\"London\"\x7d\x7d]\x7d"

/-- Backend whose model is loaded and whose reply is `toolCallJson`. -/
def backendToolCall : Backend :=
  { getModelInfo := fun _ => Except.ok (some ())
    respond := fun _ _ _ => Except.ok toolCallJson }

/-- Backend whose model is loaded and whose reply is a plain final
answer. -/
def backendSunny : Backend :=
  { getModelInfo := fun _ => Except.ok (some ())
    respond := fun _ _ _ => Except.ok ("It" ++ apoS ++ "s sunny") }

/-- Backend whose probe throws a connection error. -/
def backendRefused : Backend :=
  { getModelInfo := fun _ => Except.error "connect ECONNREFUSED"
    respond := fun _ _ _ => Except.error "connect ECONNREFUSED" }

/-- Scenario 2, first turn input: new task with the weather tool. -/
def scenarioNewInput : ActInput :=
  { sessionId := none, identifier := some "m", task := some "check weather",
    tools := some [weatherTool], toolResults := none, maxTokens := none }

/-- Scenario 2, first turn. -/
def scenarioTurn1 : ToolResult ActData × StoreState × List BackendCall :=
  act backendToolCall scenarioNewInput 1000 emptyStore

/-- The session id created in scenario 2 (the first generated id). -/
def scenarioSid : String := idGen 0

/-- Scenario 2, resume input carrying the tool result. -/
def scenarioResumeInput : ActInput :=
  { sessionId := some scenarioSid, identifier := none, task := none,
    tools := none,
    toolResults := some [{ name := "get_weather", result := "sunny" }],
    maxTokens := none }

/-- Scenario 2, second turn. -/
def scenarioTurn2 : ToolResult ActData × StoreState × List BackendCall :=
  act backendSunny scenarioResumeInput 1000 scenarioTurn1.2.1

/-- An instant past both the TTL and the cleanup interval. -/
def bigNow : Nat := SESSION_TTL_MS + CLEANUP_INTERVAL_MS + 10

/-- Store with one expired session, one live tool set, and an overdue
sweep. -/
def staleStore : StoreState :=
  { sessions := [(idGen 0,
      { id := idGen 0, messages := [], tools := [], modelId := "m",
        createdAt := 0, lastAccessedAt := 0 })]
    toolSets := [("t", { id := "t", tools := [], createdAt := bigNow,
                         lastAccessedAt := bigNow })]
    lastCleanup := 0, nextId := 1 }

/-- Parser fixture: bare tool-call JSON. -/
def tcDirectInput : String :=
  "\x7b\"tool_calls\":[\x7b\"name\":\"x\",\"arguments\":\x7b\"a\":1\x7d\x7d]\x7d"

/-- Parser fixture: the same JSON in a fenced code block. -/
def tcFencedInput : String := "```json\n" ++ tcDirectInput ++ "\n```"

/-- Parser fixture: valid JSON without a tool_calls array. -/
def tcOtherKeyInput : String := "\x7b\"other_key\":\"v\"\x7d"

/-- Parser fixture: malformed JSON before a well-formed fenced block. -/
def tcMalformedThenFenced : String :=
  "\x7bbroken json ```json " ++ tcDirectInput ++ " ```"

/-- The tool call encoded by the parser fixtures. -/
def tcExpected : ToolCallRequest :=
  { name := some (JVal.str "x")
    arguments := some (JVal.obj [("a", JVal.num "1")]) }

-- ============ Store invariants ============

/-- Keys of an association list are pairwise distinct (the `Map`
invariant). -/
def keysNodup (l : List (String × α)) : Prop := (l.map Prod.fst).Nodup

/-- Well-formedness of the store: key uniqueness, every session keyed by
its own id, and all present ids produced by the fresh-id source. -/
structure StoreWF (st : StoreState) : Prop where
  nodup : keysNodup st.sessions
  keyId : ∀ p ∈ st.sessions, p.2.id = p.1
  fresh : ∀ p ∈ st.sessions, ∃ k, k < st.nextId ∧ p.1 = idGen k

/-- The logical content of the store at instant `now`: a session is
visible iff it is physically present and within its TTL (spec §3
invariant). -/
def sessionView (now : Nat) (st : StoreState) (id : String) : Option Session :=
  match mapFind id st.sessions with
  | none => none
  | some s => if now - s.lastAccessedAt ≤ SESSION_TTL_MS then some s else none

/-- The sweep is not due: running `maybeCleanup` changes nothing. -/
def NotDue (now : Nat) (st : StoreState) : Prop :=
  now - st.lastCleanup ≤ CLEANUP_INTERVAL_MS

-- ============ Association-list lemmas ============

theorem mapFind_mapSet_self (k : String) (v : α) (l : List (String × α)) :
    mapFind k (mapSet k v l) = some v := by
  induction l with
  | nil => simp [mapSet, mapFind]
  | cons p t ih =>
    obtain ⟨k', v'⟩ := p
    by_cases h : k' = k
    · simp [mapSet, mapFind, h]
    · simp [mapSet, mapFind, h, ih]

theorem mapFind_mapSet_ne (h : k' ≠ k) (v : α) (l : List (String × α)) :
    mapFind k' (mapSet k v l) = mapFind k' l := by
  have hks : ¬(k = k') := fun hh => h hh.symm
  induction l with
  | nil => simp [mapSet, mapFind, hks]
  | cons p t ih =>
    obtain ⟨k'', v''⟩ := p
    by_cases hk : k'' = k
    · subst hk
      simp [mapSet, mapFind, hks]
    · simp only [mapSet, if_neg hk, mapFind]
      by_cases hk' : k'' = k'
      · simp [hk']
      · simp [hk', ih]

theorem mapFind_mapDelete_self (k : String) (l : List (String × α)) :
    mapFind k (mapDelete k l) = none := by
  induction l with
  | nil => simp [mapDelete, mapFind]
  | cons p t ih =>
    obtain ⟨k', v'⟩ := p
    by_cases h : k' = k
    · simp [mapDelete, h, ih]
    · simp [mapDelete, h, mapFind, ih]

theorem mapFind_mapDelete_ne (h : k' ≠ k) (l : List (String × α)) :
    mapFind k' (mapDelete k l) = mapFind k' l := by
  have hks : ¬(k = k') := fun hh => h hh.symm
  induction l with
  | nil => simp [mapDelete, mapFind]
  | cons p t ih =>
    obtain ⟨k'', v''⟩ := p
    by_cases hk : k'' = k
    · subst hk
      simp [mapDelete, mapFind, hks, ih]
    · simp only [mapDelete, if_neg hk, mapFind]
      by_cases hk' : k'' = k'
      · simp [hk']
      · simp [hk', ih]

theorem mapFind_mem (h : mapFind k l = some v) : (k, v) ∈ l := by
  induction l with
  | nil => simp [mapFind] at h
  | cons p t ih =>
    obtain ⟨k', v'⟩ := p
    by_cases hk : k' = k
    · subst hk
      simp [mapFind] at h
      simp [h]
    · simp [mapFind, hk] at h
      exact List.mem_cons_of_mem _ (ih h)

theorem mapFind_eq_none_of_not_mem (h : k ∉ l.map Prod.fst) :
    mapFind k l = none := by
  induction l with
  | nil => simp [mapFind]
  | cons p t ih =>
    obtain ⟨k', v'⟩ := p
    simp only [List.map_cons, List.mem_cons] at h
    push_neg at h
    have hne : ¬(k' = k) := fun hh => h.1 hh.symm
    simp [mapFind, hne, ih h.2]

theorem not_mem_of_mapFind_eq_none (h : mapFind k l = none) :
    k ∉ l.map Prod.fst := by
  induction l with
  | nil => simp
  | cons p t ih =>
    obtain ⟨k', v'⟩ := p
    by_cases hk : k' = k
    · simp [mapFind, hk] at h
    · simp only [mapFind, if_neg hk] at h
      simp [List.mem_cons, Ne.symm hk, ih h]

theorem mapDelete_sublist (k : String) (l : List (String × α)) :
    List.Sublist (mapDelete k l) l := by
  induction l with
  | nil => simp [mapDelete]
  | cons p t ih =>
    obtain ⟨k', v'⟩ := p
    by_cases h : k' = k
    · simpa [mapDelete, h] using ih.cons _
    · simpa [mapDelete, h] using List.Sublist.cons₂ (k', v') ih

theorem mem_mapSet (h : q ∈ mapSet k v l) : q = (k, v) ∨ q ∈ l := by
  induction l with
  | nil => simpa [mapSet] using h
  | cons p t ih =>
    obtain ⟨k', v'⟩ := p
    by_cases hk : k' = k
    · simp only [mapSet, if_pos hk, List.mem_cons] at h
      rcases h with h | h
      · exact Or.inl h
      · exact Or.inr (List.mem_cons_of_mem _ h)
    · simp only [mapSet, if_neg hk, List.mem_cons] at h
      rcases h with h | h
      · exact Or.inr (by simp [h])
      · rcases ih h with h' | h'
        · exact Or.inl h'
        · exact Or.inr (List.mem_cons_of_mem _ h')

theorem mem_keys_mapSet (h : a ∈ (mapSet k v l).map Prod.fst) :
    a = k ∨ a ∈ l.map Prod.fst := by
  rcases List.mem_map.1 h with ⟨q, hq, rfl⟩
  rcases mem_mapSet hq with h' | h'
  · exact Or.inl (by simp [h'])
  · exact Or.inr (List.mem_map_of_mem _ h')

theorem keysNodup_mapSet (hn : keysNodup l) : keysNodup (mapSet k v l) := by
  induction l with
  | nil => simp [keysNodup, mapSet]
  | cons p t ih =>
    obtain ⟨k', v'⟩ := p
    simp only [keysNodup, List.map_cons, List.nodup_cons] at hn
    by_cases hk : k' = k
    · subst hk
      simpa [keysNodup, mapSet, List.nodup_cons] using hn
    · have ht := ih hn.2
      simp only [keysNodup, mapSet, if_neg hk, List.map_cons, List.nodup_cons]
      refine ⟨fun hmem => ?_, by simpa [keysNodup] using ht⟩
      rcases mem_keys_mapSet hmem with h' | h'
      · exact hk h'
      · exact hn.1 h'

theorem keysNodup_mapDelete (hn : keysNodup l) : keysNodup (mapDelete k l) :=
  List.Nodup.sublist ((mapDelete_sublist k l).map Prod.fst) hn

theorem keysNodup_filter (hn : keysNodup l) : keysNodup (l.filter p) :=
  List.Nodup.sublist ((List.filter_sublist l).map Prod.fst) hn

theorem mapSet_eq_append (h : mapFind k l = none) :
    mapSet k v l = l ++ [(k, v)] := by
  induction l with
  | nil => simp [mapSet]
  | cons p t ih =>
    obtain ⟨k', v'⟩ := p
    by_cases hk : k' = k
    · simp [mapFind, hk] at h
    · simp only [mapFind, if_neg hk] at h
      simp [mapSet, hk, ih h]

theorem mapDelete_eq_self (h : mapFind k l = none) : mapDelete k l = l := by
  induction l with
  | nil => simp [mapDelete]
  | cons p t ih =>
    obtain ⟨k', v'⟩ := p
    by_cases hk : k' = k
    · simp [mapFind, hk] at h
    · simp only [mapFind, if_neg hk] at h
      simp [mapDelete, hk, ih h]

theorem mapDelete_append (k : String) (l l' : List (String × α)) :
    mapDelete k (l ++ l') = mapDelete k l ++ mapDelete k l' := by
  induction l with
  | nil => simp [mapDelete]
  | cons p t ih =>
    obtain ⟨k', v'⟩ := p
    by_cases hk : k' = k
    · simp [mapDelete, hk, ih]
    · simp [mapDelete, hk, ih]

theorem mapSet_mapSet (k : String) (v v' : α) (l : List (String × α)) :
    mapSet k v (mapSet k v' l) = mapSet k v l := by
  induction l with
  | nil => simp [mapSet]
  | cons p t ih =>
    obtain ⟨k', v''⟩ := p
    by_cases hk : k' = k
    · simp [mapSet, hk]
    · simp [mapSet, hk, ih]

theorem mapFind_filter_none (p : String × α → Bool) (h : mapFind k l = none) :
    mapFind k (l.filter p) = none := by
  apply mapFind_eq_none_of_not_mem
  intro hmem
  exact not_mem_of_mapFind_eq_none h
    (((List.filter_sublist l).map Prod.fst).mem hmem)

theorem mapFind_filter_some (hn : keysNodup l) (h : mapFind k l = some v) :
    mapFind k (l.filter p) = if p (k, v) then some v else none := by
  induction l with
  | nil => simp [mapFind] at h
  | cons q t ih =>
    obtain ⟨k', v'⟩ := q
    simp only [keysNodup, List.map_cons, List.nodup_cons] at hn
    by_cases hk : k' = k
    · subst hk
      simp only [mapFind, if_pos rfl] at h
      obtain rfl : v' = v := by injection h
      by_cases hp : p (k', v')
      · simp [List.filter_cons, hp, mapFind]
      · have h0 : mapFind k' t = none := mapFind_eq_none_of_not_mem hn.1
        simp [List.filter_cons, hp, mapFind_filter_none p h0]
    · simp only [mapFind, if_neg hk] at h
      have ht := ih (by simpa [keysNodup] using hn.2) h
      by_cases hp : p (k', v')
      · simpa [List.filter_cons, hp, mapFind, hk] using ht
      · simpa [List.filter_cons, hp] using ht

-- ============ Cleanup and sweep lemmas ============

theorem maybeCleanup_notDue (h : NotDue now st) : maybeCleanup now st = st := by
  unfold maybeCleanup
  rw [if_neg (Nat.not_lt.mpr h)]

theorem maybeCleanup_due (h : ¬NotDue now st) :
    maybeCleanup now st =
      { sessions := st.sessions.filter
          (fun p => !(decide (now - p.2.lastAccessedAt > SESSION_TTL_MS)))
        toolSets := st.toolSets.filter
          (fun p => !(decide (now - p.2.lastAccessedAt > SESSION_TTL_MS)))
        lastCleanup := now
        nextId := st.nextId } := by
  unfold maybeCleanup cleanupExpiredSessions
  rw [if_pos (Nat.not_le.mp h)]

theorem notDue_maybeCleanup (now : Nat) (st : StoreState) :
    NotDue now (maybeCleanup now st) := by
  by_cases h : NotDue now st
  · rw [maybeCleanup_notDue h]; exact h
  · rw [maybeCleanup_due h]; simp [NotDue]

theorem maybeCleanup_idem (now : Nat) (st : StoreState) :
    maybeCleanup now (maybeCleanup now st) = maybeCleanup now st :=
  maybeCleanup_notDue (notDue_maybeCleanup now st)

theorem maybeCleanup_nextId (now : Nat) (st : StoreState) :
    (maybeCleanup now st).nextId = st.nextId := by
  by_cases h : NotDue now st
  · rw [maybeCleanup_notDue h]
  · rw [maybeCleanup_due h]

theorem mem_sessions_maybeCleanup (h : q ∈ (maybeCleanup now st).sessions) :
    q ∈ st.sessions := by
  by_cases hd : NotDue now st
  · rwa [maybeCleanup_notDue hd] at h
  · rw [maybeCleanup_due hd] at h
    exact List.mem_of_mem_filter h

theorem storeWF_maybeCleanup (h : StoreWF st) : StoreWF (maybeCleanup now st) := by
  by_cases hd : NotDue now st
  · rwa [maybeCleanup_notDue hd]
  · rw [maybeCleanup_due hd]
    refine ⟨keysNodup_filter h.nodup, ?_, ?_⟩
    · intro p hp
      exact h.keyId p (List.mem_of_mem_filter hp)
    · intro p hp
      exact h.fresh p (List.mem_of_mem_filter hp)

/-- Expiry predicate used by the sweep, in `Prop` form. -/
theorem keep_eq_true (now la : Nat) :
    (!(decide (now - la > SESSION_TTL_MS))) = true ↔ now - la ≤ SESSION_TTL_MS := by
  simp [Nat.not_lt]

theorem mapFind_maybeCleanup_none (h : mapFind sid st.sessions = none) :
    mapFind sid (maybeCleanup now st).sessions = none := by
  by_cases hd : NotDue now st
  · rwa [maybeCleanup_notDue hd]
  · rw [maybeCleanup_due hd]
    exact mapFind_filter_none _ h

theorem mapFind_maybeCleanup_live (hn : keysNodup st.sessions)
    (h : mapFind sid st.sessions = some s)
    (hl : now - s.lastAccessedAt ≤ SESSION_TTL_MS) :
    mapFind sid (maybeCleanup now st).sessions = some s := by
  by_cases hd : NotDue now st
  · rwa [maybeCleanup_notDue hd]
  · rw [maybeCleanup_due hd]
    rw [mapFind_filter_some hn h, if_pos ((keep_eq_true now _).2 hl)]

theorem mapFind_maybeCleanup_expired (hn : keysNodup st.sessions)
    (h : mapFind sid st.sessions = some s)
    (he : SESSION_TTL_MS < now - s.lastAccessedAt) :
    mapFind sid (maybeCleanup now st).sessions = none ∨
      mapFind sid (maybeCleanup now st).sessions = some s := by
  by_cases hd : NotDue now st
  · rw [maybeCleanup_notDue hd]; exact Or.inr h
  · rw [maybeCleanup_due hd]
    left
    rw [mapFind_filter_some hn h, if_neg]
    simp [Nat.not_le.mpr he]

-- ============ Fresh-id lemmas ============

theorem idGen_inj (h : idGen a = idGen b) : a = b := by
  have h' := congrArg (fun s => s.data.length) h
  simpa [idGen] using h'

theorem mapFind_idGen_fresh (hw : StoreWF st) :
    mapFind (idGen st.nextId) st.sessions = none := by
  apply mapFind_eq_none_of_not_mem
  intro hmem
  rcases List.mem_map.1 hmem with ⟨p, hp, hkey⟩
  rcases hw.fresh p hp with ⟨k, hk, hkeq⟩
  rw [hkeq] at hkey
  exact absurd (idGen_inj hkey) (Nat.ne_of_lt hk)

-- ============ Operation characterizations ============

theorem getSession_eq_none (h : mapFind sid (maybeCleanup now st).sessions = none) :
    getSession sid now st = (none, maybeCleanup now st) := by
  simp [getSession, h]

theorem getSession_eq_expired
    (h : mapFind sid (maybeCleanup now st).sessions = some s)
    (he : SESSION_TTL_MS < now - s.lastAccessedAt) :
    getSession sid now st =
      (none, { maybeCleanup now st with
               sessions := mapDelete sid (maybeCleanup now st).sessions }) := by
  simp [getSession, h, he]

theorem getSession_eq_live
    (h : mapFind sid (maybeCleanup now st).sessions = some s)
    (hl : now - s.lastAccessedAt ≤ SESSION_TTL_MS) :
    getSession sid now st =
      (some { s with lastAccessedAt := now },
       { maybeCleanup now st with
         sessions := mapSet sid { s with lastAccessedAt := now }
           (maybeCleanup now st).sessions }) := by
  simp [getSession, h, Nat.not_lt.mpr hl]

theorem appendMessage_eq_none
    (h : mapFind sid (maybeCleanup now st).sessions = none) (m : ChatMessage) :
    appendMessage sid m now st = (false, maybeCleanup now st) := by
  simp [appendMessage, getSession_eq_none h]

theorem appendMessage_eq_expired
    (h : mapFind sid (maybeCleanup now st).sessions = some s)
    (he : SESSION_TTL_MS < now - s.lastAccessedAt) (m : ChatMessage) :
    appendMessage sid m now st =
      (false, { maybeCleanup now st with
                sessions := mapDelete sid (maybeCleanup now st).sessions }) := by
  simp [appendMessage, getSession_eq_expired h he]

theorem appendMessage_eq_live
    (h : mapFind sid (maybeCleanup now st).sessions = some s)
    (hl : now - s.lastAccessedAt ≤ SESSION_TTL_MS) (m : ChatMessage) :
    appendMessage sid m now st =
      (true, { maybeCleanup now st with
               sessions := mapSet sid
                 { s with messages := s.messages ++ [m], lastAccessedAt := now }
                 (maybeCleanup now st).sessions }) := by
  simp only [appendMessage, getSession_eq_live h hl]
  rw [mapSet_mapSet]

-- ============ Well-formedness preservation ============

theorem storeWF_set_live (hw : StoreWF st)
    (h : mapFind sid st.sessions = some s0) (hid : s.id = sid) :
    StoreWF { st with sessions := mapSet sid s st.sessions } := by
  refine ⟨keysNodup_mapSet hw.nodup, ?_, ?_⟩
  · intro p hp
    rcases mem_mapSet hp with rfl | hp'
    · exact hid
    · exact hw.keyId p hp'
  · intro p hp
    rcases mem_mapSet hp with rfl | hp'
    · exact hw.fresh (sid, s0) (mapFind_mem h)
    · exact hw.fresh p hp'

theorem storeWF_delete (hw : StoreWF st) :
    StoreWF { st with sessions := mapDelete sid st.sessions } := by
  refine ⟨keysNodup_mapDelete hw.nodup, ?_, ?_⟩
  · intro p hp
    exact hw.keyId p ((mapDelete_sublist sid st.sessions).mem hp)
  · intro p hp
    exact hw.fresh p ((mapDelete_sublist sid st.sessions).mem hp)

-- ============ Session view lemmas ============

theorem sessionView_maybeCleanup (hn : keysNodup st.sessions) (sid : String) :
    sessionView now (maybeCleanup now st) sid = sessionView now st sid := by
  cases hf : mapFind sid st.sessions with
  | none => simp [sessionView, mapFind_maybeCleanup_none hf, hf]
  | some s =>
    by_cases hl : now - s.lastAccessedAt ≤ SESSION_TTL_MS
    · simp [sessionView, mapFind_maybeCleanup_live hn hf hl, hf]
    · rcases mapFind_maybeCleanup_expired hn hf (Nat.not_le.mp hl) with h | h
      · simp [sessionView, h, hf, hl]
      · simp [sessionView, h, hf]

theorem sessionView_delete_dead (hf : mapFind sid st.sessions = some s)
    (he : SESSION_TTL_MS < now - s.lastAccessedAt) (sid' : String) :
    sessionView now { st with sessions := mapDelete sid st.sessions } sid' =
      sessionView now st sid' := by
  by_cases h : sid' = sid
  · subst h
    simp [sessionView, mapFind_mapDelete_self, hf, Nat.not_le.mpr he]
  · simp [sessionView, mapFind_mapDelete_ne h]

theorem sessionView_set_ne (h : sid' ≠ sid) :
    sessionView now { st with sessions := mapSet sid s st.sessions } sid' =
      sessionView now st sid' := by
  simp [sessionView, mapFind_mapSet_ne h]

theorem storeWF_empty : StoreWF emptyStore := by
  refine ⟨?_, ?_, ?_⟩ <;> simp [emptyStore, keysNodup]

theorem storeWF_liveStore : StoreWF liveStore := by
  refine ⟨?_, ?_, ?_⟩
  · simp [liveStore, keysNodup]
  · intro p hp
    simp only [liveStore, List.mem_singleton] at hp
    simp [hp]
  · intro p hp
    simp only [liveStore, List.mem_singleton] at hp
    exact ⟨0, by simp [liveStore], by simp [hp]⟩

-- ============ Claim theorems ============

/-- C1: `getSession` returns absent when the id is unknown; when the
elapsed time since `lastAccessedAt` exceeds the 30-minute TTL it returns
absent and the record is deleted from the store; for any smaller elapsed
time it returns the session with `lastAccessedAt` refreshed to the
current instant, and stores the refreshed record (sliding-window
expiry). -/
theorem claim_C1_getSession_ttl (st : StoreState) (sid : String) (now : Nat)
    (hw : StoreWF st) :
    (mapFind sid st.sessions = none → (getSession sid now st).1 = none) ∧
    (∀ s, mapFind sid st.sessions = some s →
      SESSION_TTL_MS < now - s.lastAccessedAt →
      (getSession sid now st).1 = none ∧
      mapFind sid (getSession sid now st).2.sessions = none) ∧
    (∀ s, mapFind sid st.sessions = some s →
      now - s.lastAccessedAt ≤ SESSION_TTL_MS →
      (getSession sid now st).1 = some { s with lastAccessedAt := now } ∧
      mapFind sid (getSession sid now st).2.sessions =
        some { s with lastAccessedAt := now }) := by
  refine ⟨?_, ?_, ?_⟩
  · intro hf
    rw [getSession_eq_none (mapFind_maybeCleanup_none hf)]
  · intro s hf he
    rcases mapFind_maybeCleanup_expired hw.nodup hf he with h | h
    · rw [getSession_eq_none h]
      exact ⟨rfl, h⟩
    · rw [getSession_eq_expired h he]
      exact ⟨rfl, mapFind_mapDelete_self sid _⟩
  · intro s hf hl
    have h := mapFind_maybeCleanup_live hw.nodup hf hl
    rw [getSession_eq_live h hl]
    exact ⟨rfl, mapFind_mapSet_self sid _ _⟩

/-- Witness for C1: at a concrete store, an unknown id yields absent and
a live id is returned with its access time refreshed. -/
theorem claim_C1_getSession_ttl_witness :
    (getSession "unknown" 5 liveStore).1 = none ∧
    (getSession (idGen 0) 5 liveStore).1 =
      some { id := idGen 0, messages := [], tools := [], modelId := "m",
             createdAt := 0, lastAccessedAt := 5 } := by
  constructor
  · exact (claim_C1_getSession_ttl liveStore "unknown" 5 storeWF_liveStore).1 rfl
  · exact ((claim_C1_getSession_ttl liveStore (idGen 0) 5 storeWF_liveStore).2.2
      { id := idGen 0, messages := [], tools := [], modelId := "m",
        createdAt := 0, lastAccessedAt := 0 } rfl (by decide)).1

theorem sessionView_eq_some (h : sessionView now st sid = some s) :
    mapFind sid st.sessions = some s ∧ now - s.lastAccessedAt ≤ SESSION_TTL_MS := by
  unfold sessionView at h
  split at h
  next hf => exact Option.noConfusion h
  next s0 hf =>
    split at h
    next hl =>
      obtain rfl : s0 = s := by injection h
      exact ⟨hf, hl⟩
    next hl => exact Option.noConfusion h

theorem sessionView_eq_none (h : sessionView now st sid = none) :
    mapFind sid st.sessions = none ∨
      ∃ s, mapFind sid st.sessions = some s ∧
        SESSION_TTL_MS < now - s.lastAccessedAt := by
  unfold sessionView at h
  split at h
  next hf => exact Or.inl hf
  next s0 hf =>
    split at h
    next hl => exact Option.noConfusion h
    next hl => exact Or.inr ⟨s0, hf, Nat.not_le.mp hl⟩

/-- C6: `appendMessage` on an unknown or expired id returns false and
leaves the logical store content untouched; on a live id it returns
true, the stored log becomes the old log with the new message appended
at the end (so its length grows by exactly one and prior messages keep
their positions), and every other session is unchanged. -/
theorem claim_C6_appendMessage (st : StoreState) (sid : String)
    (m : ChatMessage) (now : Nat) (hw : StoreWF st) :
    (sessionView now st sid = none →
      (appendMessage sid m now st).1 = false ∧
      ∀ sid', sessionView now (appendMessage sid m now st).2 sid' =
        sessionView now st sid') ∧
    (∀ s, sessionView now st sid = some s →
      (appendMessage sid m now st).1 = true ∧
      mapFind sid (appendMessage sid m now st).2.sessions =
        some { s with messages := s.messages ++ [m], lastAccessedAt := now } ∧
      (s.messages ++ [m]).length = s.messages.length + 1 ∧
      ∀ sid', sid' ≠ sid →
        sessionView now (appendMessage sid m now st).2 sid' =
          sessionView now st sid') := by
  constructor
  · intro hv
    rcases sessionView_eq_none hv with hf | ⟨s, hf, he⟩
    · rw [appendMessage_eq_none (mapFind_maybeCleanup_none hf)]
      exact ⟨rfl, fun sid' => sessionView_maybeCleanup hw.nodup sid'⟩
    · rcases mapFind_maybeCleanup_expired hw.nodup hf he with h | h
      · rw [appendMessage_eq_none h]
        exact ⟨rfl, fun sid' => sessionView_maybeCleanup hw.nodup sid'⟩
      · rw [appendMessage_eq_expired h he]
        exact ⟨rfl, fun sid' =>
          (sessionView_delete_dead h he sid').trans
            (sessionView_maybeCleanup hw.nodup sid')⟩
  · intro s hv
    obtain ⟨hf, hl⟩ := sessionView_eq_some hv
    have h := mapFind_maybeCleanup_live hw.nodup hf hl
    rw [appendMessage_eq_live h hl]
    exact ⟨rfl, mapFind_mapSet_self sid _ _, by simp, fun sid' hne =>
      (sessionView_set_ne hne).trans (sessionView_maybeCleanup hw.nodup sid')⟩

/-- Witness for C6: appending to the live fixture session succeeds and
stores the one-longer log; appending to an unknown id fails. -/
theorem claim_C6_appendMessage_witness :
    ((appendMessage "unknown" ⟨Role.user, "hi"⟩ 5 liveStore).1 = false) ∧
    ((appendMessage (idGen 0) ⟨Role.user, "hi"⟩ 5 liveStore).1 = true ∧
      mapFind (idGen 0) (appendMessage (idGen 0) ⟨Role.user, "hi"⟩ 5 liveStore).2.sessions =
        some { id := idGen 0, messages := [⟨Role.user, "hi"⟩], tools := [],
               modelId := "m", createdAt := 0, lastAccessedAt := 5 }) := by
  constructor
  · exact ((claim_C6_appendMessage liveStore "unknown" ⟨Role.user, "hi"⟩ 5
      storeWF_liveStore).1 (by rfl)).1
  · have h := (claim_C6_appendMessage liveStore (idGen 0) ⟨Role.user, "hi"⟩ 5
      storeWF_liveStore).2
      { id := idGen 0, messages := [], tools := [], modelId := "m",
        createdAt := 0, lastAccessedAt := 0 } (by rfl)
    exact ⟨h.1, h.2.1⟩

/-- C9: an act call without a session id that omits the model identifier
or the task string fails with error code invalid-input, leaves the store
exactly unchanged (so no session is created and the session count is
unchanged), and performs no backend call. -/
theorem claim_C9_new_task_validation (b : Backend) (input : ActInput)
    (now : Nat) (st : StoreState) (hs : input.sessionId = none)
    (hmiss : input.identifier = none ∨ input.task = none) :
    (act b input now st).1.success = false ∧
    ((act b input now st).1.error.map (fun e => e.code)) =
      some ErrorCode.INVALID_INPUT ∧
    (act b input now st).2.1 = st ∧
    (act b input now st).2.2 = [] := by
  rcases hmiss with h | h
  · have hid : strFalsy input.identifier = true := by rw [h]; rfl
    refine ⟨?_, ?_, ?_, ?_⟩ <;> simp [act, hs, hid, errorResult]
  · by_cases h2 : strFalsy input.identifier = true
    · refine ⟨?_, ?_, ?_, ?_⟩ <;> simp [act, hs, h2, errorResult]
    · have hid2 : strFalsy input.identifier = false :=
        Bool.eq_false_iff.mpr h2
      have ht : strFalsy input.task = true := by rw [h]; rfl
      refine ⟨?_, ?_, ?_, ?_⟩ <;> simp [act, hs, hid2, ht, errorResult]

/-- Witness for C9: a concrete new-task call without an identifier. -/
theorem claim_C9_new_task_validation_witness :
    (act backendSunny
        { sessionId := none, identifier := none, task := some "t",
          tools := none, toolResults := none, maxTokens := none }
        5 emptyStore).1.success = false ∧
    ((act backendSunny
        { sessionId := none, identifier := none, task := some "t",
          tools := none, toolResults := none, maxTokens := none }
        5 emptyStore).1.error.map (fun e => e.code)) =
      some ErrorCode.INVALID_INPUT ∧
    (act backendSunny
        { sessionId := none, identifier := none, task := some "t",
          tools := none, toolResults := none, maxTokens := none }
        5 emptyStore).2.1 = emptyStore ∧
    (act backendSunny
        { sessionId := none, identifier := none, task := some "t",
          tools := none, toolResults := none, maxTokens := none }
        5 emptyStore).2.2 = [] :=
  claim_C9_new_task_validation backendSunny
    { sessionId := none, identifier := none, task := some "t",
      tools := none, toolResults := none, maxTokens := none }
    5 emptyStore rfl (Or.inl rfl)

set_option maxRecDepth 4000 in
theorem buildToolSystemPrompt_ne_empty (T : List ToolSchema) :
    (buildToolSystemPrompt T == "") = false := by
  apply beq_eq_false_iff_ne.mpr
  intro h
  have hd : (buildToolSystemPrompt T).data = [] := by rw [h]
  simp [buildToolSystemPrompt, String.data_append, List.append_eq_nil] at hd

theorem initMessages_length_of_tools (T : List ToolSchema) :
    (initMessages
        (if T.length > 0 then some (buildToolSystemPrompt T) else none)).length =
      if T.length = 0 then 0 else 1 := by
  by_cases h : T.length = 0
  · simp [h, initMessages]
  · have hpos : T.length > 0 := Nat.pos_of_ne_zero h
    simp [initMessages, hpos, h, buildToolSystemPrompt_ne_empty]

theorem createSession_eq (mid : String) (T : List ToolSchema)
    (sp : Option String) (now : Nat) (st : StoreState) :
    createSession mid T sp now st =
      ({ id := idGen (maybeCleanup now st).nextId, messages := initMessages sp,
         tools := T, modelId := mid, createdAt := now, lastAccessedAt := now },
       { maybeCleanup now st with
         sessions := mapSet (idGen (maybeCleanup now st).nextId)
           { id := idGen (maybeCleanup now st).nextId,
             messages := initMessages sp, tools := T, modelId := mid,
             createdAt := now, lastAccessedAt := now }
           (maybeCleanup now st).sessions
         nextId := (maybeCleanup now st).nextId + 1 }) := rfl

/-- C7: creating a session for a new task with tool list `T` (system
prompt synthesized iff `T` is non-empty, as in the act entry path) and
reading it back through `getSessionInfo` reports `toolCount = |T|` and a
`messageCount` that counts exactly the synthesized system message: 1 iff
`T` is non-empty, 0 otherwise. -/
theorem claim_C7_create_info_roundtrip (st : StoreState) (now : Nat)
    (mid : String) (T : List ToolSchema) (hw : StoreWF st) :
    ((getSessionInfo
        (createSession mid T
          (if T.length > 0 then some (buildToolSystemPrompt T) else none)
          now st).1.id
        now
        (createSession mid T
          (if T.length > 0 then some (buildToolSystemPrompt T) else none)
          now st).2).1.map (fun i => (i.toolCount, i.messageCount))) =
      some (T.length, if T.length = 0 then 0 else 1) := by
  rw [createSession_eq]
  have hwmc : StoreWF (maybeCleanup now st) := storeWF_maybeCleanup hw
  have hnd : NotDue now
      ({ maybeCleanup now st with
         sessions := mapSet (idGen (maybeCleanup now st).nextId)
           { id := idGen (maybeCleanup now st).nextId,
             messages := initMessages
               (if T.length > 0 then some (buildToolSystemPrompt T) else none),
             tools := T, modelId := mid,
             createdAt := now, lastAccessedAt := now }
           (maybeCleanup now st).sessions
         nextId := (maybeCleanup now st).nextId + 1 }) :=
    notDue_maybeCleanup now st
  have hfind := mapFind_mapSet_self (idGen (maybeCleanup now st).nextId)
    ({ id := idGen (maybeCleanup now st).nextId,
       messages := initMessages
         (if T.length > 0 then some (buildToolSystemPrompt T) else none),
       tools := T, modelId := mid,
       createdAt := now, lastAccessedAt := now } : Session)
    (maybeCleanup now st).sessions
  have hlive : now - now ≤ SESSION_TTL_MS := by simp
  rw [getSessionInfo,
    getSession_eq_live (by rw [maybeCleanup_notDue hnd]; exact hfind) hlive]
  simp [initMessages_length_of_tools]

-- ============ act-level lemmas ============

theorem maybeCleanup_sessions_of_live
    (h : ∀ p ∈ st.sessions, now - p.2.lastAccessedAt ≤ SESSION_TTL_MS) :
    (maybeCleanup now st).sessions = st.sessions := by
  by_cases hd : NotDue now st
  · rw [maybeCleanup_notDue hd]
  · rw [maybeCleanup_due hd]
    exact List.filter_eq_self.mpr (fun p hp => (keep_eq_true now _).2 (h p hp))

theorem actShared_fail (b : Backend) (isNew : Bool) (s : Session)
    (mt : Option Nat) (now : Nat) (st : StoreState)
    (hfb : failingBackend b s.modelId) :
    (actShared b isNew s mt now st).1.success = false ∧
    (actShared b isNew s mt now st).2.1 =
      (if isNew then { st with sessions := mapDelete s.id st.sessions }
       else st) := by
  rcases hfb with ⟨m, hm⟩ | hm | ⟨⟨u, hu⟩, hr⟩
  · constructor <;> simp [actShared, hm, errorResult, deleteSession]
  · constructor <;> simp [actShared, hm, errorResult, deleteSession]
  · obtain ⟨m, hm⟩ := hr s.messages (effMaxTokens mt)
    constructor <;> simp [actShared, hu, hm, errorResult, deleteSession]

theorem getSession_some_inv (hw : StoreWF st)
    (h : getSession sid now st = (some s, st1)) :
    s.id = sid ∧ s.lastAccessedAt = now ∧ mapFind sid st1.sessions = some s ∧
    StoreWF st1 ∧ NotDue now st1 := by
  cases hf : mapFind sid (maybeCleanup now st).sessions with
  | none =>
    rw [getSession_eq_none hf] at h
    exact absurd (congrArg Prod.fst h) (by simp)
  | some s0 =>
    by_cases hl : now - s0.lastAccessedAt ≤ SESSION_TTL_MS
    · rw [getSession_eq_live hf hl] at h
      rw [Prod.ext_iff] at h
      obtain ⟨h1, h2⟩ := h
      simp only at h1 h2
      have hs' : { s0 with lastAccessedAt := now } = s := Option.some.inj h1
      have hwmc : StoreWF (maybeCleanup now st) := storeWF_maybeCleanup hw
      have hid0 : s0.id = sid := hwmc.keyId (sid, s0) (mapFind_mem hf)
      subst hs'
      subst h2
      exact ⟨hid0, rfl, mapFind_mapSet_self sid _ _,
        storeWF_set_live hwmc hf hid0, notDue_maybeCleanup now st⟩
    · rw [getSession_eq_expired hf (Nat.not_le.mp hl)] at h
      exact absurd (congrArg Prod.fst h) (by simp)

theorem act_resume_noTr (b : Backend) (input : ActInput) (now : Nat)
    (st : StoreState) (hs : input.sessionId = some sid)
    (hg : getSession sid now st = (some s, st1))
    (htr : input.toolResults = none ∨ input.toolResults = some []) :
    act b input now st = actShared b false s input.maxTokens now st1 := by
  rcases htr with h | h <;> simp [act, hs, hg, h]

theorem act_resume_tr (b : Backend) (input : ActInput) (now : Nat)
    (st : StoreState) (hw : StoreWF st) (hs : input.sessionId = some sid)
    (hg : getSession sid now st = (some s, st1))
    (htr : input.toolResults = some (tr :: trs)) :
    act b input now st =
      actShared b false
        { s with
          messages := s.messages ++ [⟨Role.user, formatToolResults (tr :: trs)⟩],
          lastAccessedAt := now }
        input.maxTokens now
        { st1 with
          sessions := mapSet sid
            { s with
              messages := s.messages ++ [⟨Role.user, formatToolResults (tr :: trs)⟩],
              lastAccessedAt := now } st1.sessions } := by
  obtain ⟨hid, hla, hfind, hw1, hnd1⟩ := getSession_some_inv hw hg
  have hap := appendMessage_eq_live
    (by rw [maybeCleanup_notDue hnd1]; exact hfind)
    (by rw [hla]; simp) (⟨Role.user, formatToolResults (tr :: trs)⟩ : ChatMessage)
  rw [maybeCleanup_notDue hnd1] at hap
  simp only [act, hs, hg, htr, hid, hap]
  simp [hid]

theorem actShared_gmi_error (b : Backend) (isNew : Bool) (s : Session)
    (mt : Option Nat) (now : Nat) (st : StoreState)
    (hm : b.getModelInfo s.modelId = Except.error m) :
    actShared b isNew s mt now st =
      (errorResult "Failed to run task" (mapErrorCode m) (some m),
       (if isNew then { st with sessions := mapDelete s.id st.sessions } else st),
       [BackendCall.getModelInfo s.modelId]) := by
  simp [actShared, hm, deleteSession]

theorem actShared_gmi_none (b : Backend) (isNew : Bool) (s : Session)
    (mt : Option Nat) (now : Nat) (st : StoreState)
    (hm : b.getModelInfo s.modelId = Except.ok none) :
    actShared b isNew s mt now st =
      (errorResult ("Model " ++ apoS ++ s.modelId ++ apoS ++ " not found or not loaded")
         ErrorCode.MODEL_NOT_LOADED (some "Model not loaded"),
       (if isNew then { st with sessions := mapDelete s.id st.sessions } else st),
       [BackendCall.getModelInfo s.modelId]) := by
  simp [actShared, hm, deleteSession]

theorem actShared_respond_error (b : Backend) (isNew : Bool) (s : Session)
    (mt : Option Nat) (now : Nat) (st : StoreState) (u : Unit)
    (hu : b.getModelInfo s.modelId = Except.ok (some u))
    (hm : b.respond s.modelId s.messages (effMaxTokens mt) = Except.error m) :
    actShared b isNew s mt now st =
      (errorResult "Failed to run task" (mapErrorCode m) (some m),
       (if isNew then { st with sessions := mapDelete s.id st.sessions } else st),
       [BackendCall.getModelInfo s.modelId,
        BackendCall.respond s.modelId s.messages (effMaxTokens mt)]) := by
  simp [actShared, hu, hm, deleteSession]

theorem actShared_ok (b : Backend) (isNew : Bool) (s : Session)
    (mt : Option Nat) (now : Nat) (st : StoreState) (u : Unit) (content : String)
    (hfind : mapFind s.id st.sessions = some s) (hnd : NotDue now st)
    (hla : s.lastAccessedAt = now)
    (hu : b.getModelInfo s.modelId = Except.ok (some u))
    (hr : b.respond s.modelId s.messages (effMaxTokens mt) = Except.ok content) :
    actShared b isNew s mt now st =
      ((match parseToolCalls (jsTrim content) with
        | some (tc :: tcs) =>
          successResult "Model requested tool calls"
            (some { sessionId := s.id, done := false, response := none,
                    toolCalls := some (tc :: tcs),
                    stats := some ⟨s.messages.length + 1, (jsTrim content).length⟩ })
        | _ =>
          successResult "Task completed"
            (some { sessionId := s.id, done := true, response := none,
                    toolCalls := none,
                    stats := some ⟨s.messages.length + 1, (jsTrim content).length⟩ })),
       { st with
         sessions := mapSet s.id
           { s with messages := s.messages ++ [⟨Role.assistant, jsTrim content⟩],
                    lastAccessedAt := now } st.sessions },
       [BackendCall.getModelInfo s.modelId,
        BackendCall.respond s.modelId s.messages (effMaxTokens mt)]) := by
  have hap := appendMessage_eq_live
    (by rw [maybeCleanup_notDue hnd]; exact hfind) (by rw [hla]; simp)
    (⟨Role.assistant, jsTrim content⟩ : ChatMessage)
  rw [maybeCleanup_notDue hnd] at hap
  simp only [actShared, hu, hr, hap]
  cases hp : parseToolCalls (jsTrim content) with
  | none => simp
  | some l =>
    cases l with
    | nil => simp
    | cons tc tcs => simp

theorem act_new_eq (b : Backend) (input : ActInput) (now : Nat) (st : StoreState)
    (hs : input.sessionId = none) (hid : strFalsy input.identifier = false)
    (ht : strFalsy input.task = false) :
    act b input now st =
      actShared b true (newTaskSession input now (maybeCleanup now st).nextId)
        input.maxTokens now
        { maybeCleanup now st with
          sessions := mapSet (idGen (maybeCleanup now st).nextId)
            (newTaskSession input now (maybeCleanup now st).nextId)
            (maybeCleanup now st).sessions
          nextId := (maybeCleanup now st).nextId + 1 } := by
  have hndX : ∀ (l : List (String × Session)) (n : Nat),
      maybeCleanup now
          { maybeCleanup now st with sessions := l, nextId := n } =
        { maybeCleanup now st with sessions := l, nextId := n } :=
    fun l n => maybeCleanup_notDue (notDue_maybeCleanup now st)
  simp only [act, hs, hid, ht, Bool.false_eq_true, if_false, createSession_eq]
  simp only [appendMessage, getSession, hndX, mapFind_mapSet_self]
  simp [newTaskSession, mapSet_mapSet]

theorem session_eta (s : Session) (hla : s.lastAccessedAt = now) :
    { s with lastAccessedAt := now } = s := by
  cases s
  simp only at hla
  simp [hla]

theorem actShared_data_inv (b : Backend) (isNew : Bool) (s : Session)
    (mt : Option Nat) (now : Nat) (st : StoreState)
    (hfind : mapFind s.id st.sessions = some s) (hnd : NotDue now st)
    (hla : s.lastAccessedAt = now) :
    ∀ d, (actShared b isNew s mt now st).1.data = some d →
      d.response = none ∧ d.stats.isSome = true ∧
      (getSession d.sessionId now (actShared b isNew s mt now st).2.1).1.isSome =
        true := by
  intro d hd
  cases hgm : b.getModelInfo s.modelId with
  | error m =>
    rw [actShared_gmi_error b isNew s mt now st hgm] at hd
    simp [errorResult] at hd
  | ok o =>
    cases o with
    | none =>
      rw [actShared_gmi_none b isNew s mt now st hgm] at hd
      simp [errorResult] at hd
    | some u =>
      cases hr : b.respond s.modelId s.messages (effMaxTokens mt) with
      | error m =>
        rw [actShared_respond_error b isNew s mt now st u hgm hr] at hd
        simp [errorResult] at hd
      | ok content =>
        rw [actShared_ok b isNew s mt now st u content hfind hnd hla hgm hr] at hd ⊢
        have hnd2 : NotDue now
            ({ st with
               sessions := mapSet s.id
                 { s with messages := s.messages ++ [⟨Role.assistant, jsTrim content⟩],
                          lastAccessedAt := now } st.sessions }) := hnd
        have hget : (getSession s.id now
            { st with
              sessions := mapSet s.id
                { s with messages := s.messages ++ [⟨Role.assistant, jsTrim content⟩],
                         lastAccessedAt := now } st.sessions }).1.isSome = true := by
          rw [getSession_eq_live
            (by rw [maybeCleanup_notDue hnd2]; exact mapFind_mapSet_self s.id _ _)
            (by simp)]
          rfl
        cases hp : parseToolCalls (jsTrim content) with
        | none =>
          rw [hp] at hd
          simp only [successResult] at hd
          obtain rfl := Option.some.inj hd
          exact ⟨rfl, rfl, hget⟩
        | some l =>
          cases l with
          | nil =>
            rw [hp] at hd
            simp only [successResult] at hd
            obtain rfl := Option.some.inj hd
            exact ⟨rfl, rfl, hget⟩
          | cons tc tcs =>
            rw [hp] at hd
            simp only [successResult] at hd
            obtain rfl := Option.some.inj hd
            exact ⟨rfl, rfl, hget⟩

theorem actShared_frame (b : Backend) (s : Session) (mt : Option Nat)
    (now : Nat) (st : StoreState)
    (hfind : mapFind s.id st.sessions = some s) (hla : s.lastAccessedAt = now)
    (hnd : NotDue now st) :
    (∃ tail, (tail = ([] : List ChatMessage) ∨
        (∃ c, tail = [⟨Role.assistant, c⟩])) ∧
      mapFind s.id (actShared b false s mt now st).2.1.sessions =
        some { s with messages := s.messages ++ tail, lastAccessedAt := now }) ∧
    ∀ call ∈ (actShared b false s mt now st).2.2,
      call = BackendCall.getModelInfo s.modelId ∨
      call = BackendCall.respond s.modelId s.messages (effMaxTokens mt) := by
  have heta :
      { s with
        messages := s.messages ++ ([] : List ChatMessage),
        lastAccessedAt := now } = s := by
    rw [List.append_nil]
    exact session_eta s hla
  cases hgm : b.getModelInfo s.modelId with
  | error m =>
    rw [actShared_gmi_error b false s mt now st hgm]
    refine ⟨⟨[], Or.inl rfl, ?_⟩, ?_⟩
    · simp only [if_false, Bool.false_eq_true, ite_false]
      rw [heta]
      exact hfind
    · intro call hc
      simp only [List.mem_singleton] at hc
      exact Or.inl hc
  | ok o =>
    cases o with
    | none =>
      rw [actShared_gmi_none b false s mt now st hgm]
      refine ⟨⟨[], Or.inl rfl, ?_⟩, ?_⟩
      · simp only [if_false, Bool.false_eq_true, ite_false]
        rw [heta]
        exact hfind
      · intro call hc
        simp only [List.mem_singleton] at hc
        exact Or.inl hc
    | some u =>
      cases hr : b.respond s.modelId s.messages (effMaxTokens mt) with
      | error m =>
        rw [actShared_respond_error b false s mt now st u hgm hr]
        refine ⟨⟨[], Or.inl rfl, ?_⟩, ?_⟩
        · simp only [if_false, Bool.false_eq_true, ite_false]
          rw [heta]
          exact hfind
        · intro call hc
          simp only [List.mem_cons, List.mem_singleton] at hc
          rcases hc with h | h | h
          · exact Or.inl h
          · exact Or.inr h
          · cases h
      | ok content =>
        rw [actShared_ok b false s mt now st u content hfind hnd hla hgm hr]
        refine ⟨⟨[⟨Role.assistant, jsTrim content⟩], Or.inr ⟨jsTrim content, rfl⟩,
          ?_⟩, ?_⟩
        · exact mapFind_mapSet_self s.id _ _
        · intro call hc
          simp only [List.mem_cons, List.mem_singleton] at hc
          rcases hc with h | h | h
          · exact Or.inl h
          · exact Or.inr h
          · cases h

/-- C2: when the backend fails during an act call (probe throws, model
absent, or respond throws), a session created in that same call is
deleted before the error is returned — the physical session list is
exactly as before the call (given no other session was due to expire),
so nothing new is retrievable and the count is unchanged — while a
resumed session is never deleted and can immediately be resumed again. -/
theorem claim_C2_failure_cleanup :
    (∀ (b : Backend) (input : ActInput) (now : Nat) (st : StoreState),
      StoreWF st →
      (∀ p ∈ st.sessions, now - p.2.lastAccessedAt ≤ SESSION_TTL_MS) →
      input.sessionId = none →
      strFalsy input.identifier = false → strFalsy input.task = false →
      failingBackend b (input.identifier.getD "") →
      (act b input now st).1.success = false ∧
      (act b input now st).2.1.sessions = st.sessions) ∧
    (∀ (b : Backend) (input : ActInput) (now : Nat) (st : StoreState)
       (sid : String) (s : Session) (st1 : StoreState),
      StoreWF st → input.sessionId = some sid →
      getSession sid now st = (some s, st1) →
      failingBackend b s.modelId →
      (act b input now st).1.success = false ∧
      (getSession sid now (act b input now st).2.1).1.isSome = true) := by
  constructor
  · intro b input now st hw hlivein hs hid ht hfb
    rw [act_new_eq b input now st hs hid ht]
    have hfb' : failingBackend b
        (newTaskSession input now (maybeCleanup now st).nextId).modelId := hfb
    obtain ⟨h1, h2⟩ := actShared_fail b true
      (newTaskSession input now (maybeCleanup now st).nextId) input.maxTokens now
      { maybeCleanup now st with
        sessions := mapSet (idGen (maybeCleanup now st).nextId)
          (newTaskSession input now (maybeCleanup now st).nextId)
          (maybeCleanup now st).sessions
        nextId := (maybeCleanup now st).nextId + 1 } hfb'
    refine ⟨h1, ?_⟩
    rw [h2]
    have hfresh : mapFind (idGen (maybeCleanup now st).nextId)
        (maybeCleanup now st).sessions = none :=
      mapFind_idGen_fresh (storeWF_maybeCleanup hw)
    simp only [if_true, ite_true]
    show mapDelete (newTaskSession input now (maybeCleanup now st).nextId).id
        (mapSet (idGen (maybeCleanup now st).nextId)
          (newTaskSession input now (maybeCleanup now st).nextId)
          (maybeCleanup now st).sessions) = st.sessions
    rw [show (newTaskSession input now (maybeCleanup now st).nextId).id =
      idGen (maybeCleanup now st).nextId from rfl]
    rw [mapSet_eq_append hfresh, mapDelete_append, mapDelete_eq_self hfresh]
    simp [mapDelete, maybeCleanup_sessions_of_live hlivein]
  · intro b input now st sid s st1 hw hs hg hfb
    obtain ⟨hid, hla, hfind, hw1, hnd1⟩ := getSession_some_inv hw hg
    rcases htr : input.toolResults with _ | l
    · rw [act_resume_noTr b input now st hs hg (Or.inl htr)]
      obtain ⟨h1, h2⟩ := actShared_fail b false s input.maxTokens now st1 hfb
      refine ⟨h1, ?_⟩
      rw [h2]
      simp only [if_false, Bool.false_eq_true, ite_false]
      rw [getSession_eq_live (by rw [maybeCleanup_notDue hnd1]; exact hfind)
        (by rw [hla]; simp)]
      rfl
    · cases l with
      | nil =>
        rw [act_resume_noTr b input now st hs hg (Or.inr htr)]
        obtain ⟨h1, h2⟩ := actShared_fail b false s input.maxTokens now st1 hfb
        refine ⟨h1, ?_⟩
        rw [h2]
        simp only [if_false, Bool.false_eq_true, ite_false]
        rw [getSession_eq_live (by rw [maybeCleanup_notDue hnd1]; exact hfind)
          (by rw [hla]; simp)]
        rfl
      | cons tr trs =>
        rw [act_resume_tr b input now st hw hs hg htr]
        have hfb' : failingBackend b
            (({ s with
                messages := s.messages ++
                  [(⟨Role.user, formatToolResults (tr :: trs)⟩ : ChatMessage)],
                lastAccessedAt := now } : Session)).modelId := hfb
        obtain ⟨h1, h2⟩ := actShared_fail b false
          { s with
            messages := s.messages ++ [⟨Role.user, formatToolResults (tr :: trs)⟩],
            lastAccessedAt := now }
          input.maxTokens now
          { st1 with
            sessions := mapSet sid
              { s with
                messages := s.messages ++
                  [⟨Role.user, formatToolResults (tr :: trs)⟩],
                lastAccessedAt := now } st1.sessions } hfb'
        refine ⟨h1, ?_⟩
        rw [h2]
        simp only [if_false, Bool.false_eq_true, ite_false]
        have hnd2 : NotDue now
            ({ st1 with
               sessions := mapSet sid
                 { s with
                   messages := s.messages ++
                     [⟨Role.user, formatToolResults (tr :: trs)⟩],
                   lastAccessedAt := now } st1.sessions }) := hnd1
        rw [getSession_eq_live
          (by rw [maybeCleanup_notDue hnd2]; exact mapFind_mapSet_self sid _ _)
          (by simp)]
        rfl

/-- C5: every act result that carries data with `done = true` contains
no response text (`response` is absent) but does contain stats, and the
session is not deleted: it is still retrievable through `getSession`
immediately after the call. -/
theorem claim_C5_done_keeps_session (b : Backend) (input : ActInput)
    (now : Nat) (st : StoreState) (hw : StoreWF st) :
    ∀ d, (act b input now st).1.data = some d → d.done = true →
      d.response = none ∧ d.stats.isSome = true ∧
      (getSession d.sessionId now (act b input now st).2.1).1.isSome = true := by
  intro d hd _hdone
  rcases hsid : input.sessionId with _ | sid
  · by_cases hidf : strFalsy input.identifier = true
    · simp [act, hsid, hidf, errorResult] at hd
    · have hidf' : strFalsy input.identifier = false := Bool.eq_false_iff.mpr hidf
      by_cases htf : strFalsy input.task = true
      · simp [act, hsid, hidf', htf, errorResult] at hd
      · have htf' : strFalsy input.task = false := Bool.eq_false_iff.mpr htf
        rw [act_new_eq b input now st hsid hidf' htf'] at hd ⊢
        exact actShared_data_inv b true
          (newTaskSession input now (maybeCleanup now st).nextId)
          input.maxTokens now
          { maybeCleanup now st with
            sessions := mapSet (idGen (maybeCleanup now st).nextId)
              (newTaskSession input now (maybeCleanup now st).nextId)
              (maybeCleanup now st).sessions
            nextId := (maybeCleanup now st).nextId + 1 }
          (mapFind_mapSet_self (idGen (maybeCleanup now st).nextId) _ _)
          (notDue_maybeCleanup now st) rfl d hd
  · rcases hgp : getSession sid now st with ⟨r, st1⟩
    cases r with
    | none => simp [act, hsid, hgp, errorResult] at hd
    | some s =>
      obtain ⟨hid, hla, hfind, hw1, hnd1⟩ := getSession_some_inv hw hgp
      rcases htr : input.toolResults with _ | l
      · rw [act_resume_noTr b input now st hsid hgp (Or.inl htr)] at hd ⊢
        exact actShared_data_inv b false s input.maxTokens now st1
          (by rw [hid]; exact hfind) hnd1 hla d hd
      · cases l with
        | nil =>
          rw [act_resume_noTr b input now st hsid hgp (Or.inr htr)] at hd ⊢
          exact actShared_data_inv b false s input.maxTokens now st1
            (by rw [hid]; exact hfind) hnd1 hla d hd
        | cons tr trs =>
          rw [act_resume_tr b input now st hw hsid hgp htr] at hd ⊢
          exact actShared_data_inv b false
            { s with
              messages := s.messages ++
                [(⟨Role.user, formatToolResults (tr :: trs)⟩ : ChatMessage)],
              lastAccessedAt := now }
            input.maxTokens now
            { st1 with
              sessions := mapSet sid
                { s with
                  messages := s.messages ++
                    [(⟨Role.user, formatToolResults (tr :: trs)⟩ : ChatMessage)],
                  lastAccessedAt := now } st1.sessions }
            (by
              show mapFind s.id (mapSet sid
                { s with
                  messages := s.messages ++
                    [(⟨Role.user, formatToolResults (tr :: trs)⟩ : ChatMessage)],
                  lastAccessedAt := now } st1.sessions) = _
              rw [hid]
              exact mapFind_mapSet_self sid _ _)
            hnd1 rfl d hd

/-- C10: a resume call ignores the identifier, task, and tools inputs —
two resume calls for the same session differing only in those fields are
indistinguishable — and it mutates the session only by appending the
optional tool-results user message and at most one assistant reply: the
stored record keeps its tools, modelId, and prior messages, the backend
probe uses the stored modelId, and respond receives exactly the stored
log plus the optional tool-results message. -/
theorem claim_C10_resume_ignores_new_task_inputs :
    (∀ (b : Backend) (input input' : ActInput) (now : Nat) (st : StoreState)
       (sid : String),
      input.sessionId = some sid → input'.sessionId = some sid →
      input'.toolResults = input.toolResults →
      input'.maxTokens = input.maxTokens →
      act b input now st = act b input' now st) ∧
    (∀ (b : Backend) (input : ActInput) (now : Nat) (st : StoreState)
       (sid : String) (s : Session) (st1 : StoreState),
      StoreWF st → input.sessionId = some sid →
      getSession sid now st = (some s, st1) →
      (∃ tail, (tail = ([] : List ChatMessage) ∨
          (∃ c, tail = [⟨Role.assistant, c⟩])) ∧
        mapFind sid (act b input now st).2.1.sessions =
          some { s with
                 messages := s.messages ++ trMessages input.toolResults ++ tail,
                 lastAccessedAt := now }) ∧
      (∀ call ∈ (act b input now st).2.2,
        call = BackendCall.getModelInfo s.modelId ∨
        call = BackendCall.respond s.modelId
          (s.messages ++ trMessages input.toolResults)
          (effMaxTokens input.maxTokens))) := by
  constructor
  · intro b input input' now st sid h1 h2 h3 h4
    simp only [act, h1, h2, h3, h4]
  · intro b input now st sid s st1 hw hs hg
    obtain ⟨hid, hla, hfind, hw1, hnd1⟩ := getSession_some_inv hw hg
    subst hid
    rcases htr : input.toolResults with _ | l
    · rw [act_resume_noTr b input now st hs hg (Or.inl htr)]
      have hh := actShared_frame b s input.maxTokens now st1 hfind hla hnd1
      simpa [trMessages] using hh
    · cases l with
      | nil =>
        rw [act_resume_noTr b input now st hs hg (Or.inr htr)]
        have hh := actShared_frame b s input.maxTokens now st1 hfind hla hnd1
        simpa [trMessages] using hh
      | cons tr trs =>
        rw [act_resume_tr b input now st hw hs hg htr]
        have hh := actShared_frame b
          { s with
            messages := s.messages ++
              [(⟨Role.user, formatToolResults (tr :: trs)⟩ : ChatMessage)],
            lastAccessedAt := now }
          input.maxTokens now
          { st1 with
            sessions := mapSet s.id
              { s with
                messages := s.messages ++
                  [(⟨Role.user, formatToolResults (tr :: trs)⟩ : ChatMessage)],
                lastAccessedAt := now } st1.sessions }
          (mapFind_mapSet_self s.id _ _)
          rfl hnd1
        obtain ⟨⟨tail, hta, hmap⟩, hcalls⟩ := hh
        exact ⟨⟨tail, hta, hmap⟩, hcalls⟩

/-- Witness for C2: a connection failure on a brand-new session leaves
the empty store empty, and on a resumed session keeps it retrievable. -/
theorem claim_C2_failure_cleanup_witness :
    ((act backendRefused
        { sessionId := none, identifier := some "m", task := some "t",
          tools := none, toolResults := none, maxTokens := none }
        5 emptyStore).1.success = false ∧
     (act backendRefused
        { sessionId := none, identifier := some "m", task := some "t",
          tools := none, toolResults := none, maxTokens := none }
        5 emptyStore).2.1.sessions = emptyStore.sessions) ∧
    ((act backendRefused
        { sessionId := some (idGen 0), identifier := none, task := none,
          tools := none, toolResults := none, maxTokens := none }
        5 liveStore).1.success = false ∧
     (getSession (idGen 0) 5 (act backendRefused
        { sessionId := some (idGen 0), identifier := none, task := none,
          tools := none, toolResults := none, maxTokens := none }
        5 liveStore).2.1).1.isSome = true) := by
  constructor
  · exact claim_C2_failure_cleanup.1 backendRefused
      { sessionId := none, identifier := some "m", task := some "t",
        tools := none, toolResults := none, maxTokens := none }
      5 emptyStore storeWF_empty (by simp [emptyStore]) rfl rfl rfl
      (Or.inl ⟨"connect ECONNREFUSED", rfl⟩)
  · exact claim_C2_failure_cleanup.2 backendRefused
      { sessionId := some (idGen 0), identifier := none, task := none,
        tools := none, toolResults := none, maxTokens := none }
      5 liveStore (idGen 0)
      { id := idGen 0, messages := [], tools := [], modelId := "m",
        createdAt := 0, lastAccessedAt := 5 }
      { sessions := [(idGen 0,
          { id := idGen 0, messages := [], tools := [], modelId := "m",
            createdAt := 0, lastAccessedAt := 5 })]
        toolSets := [], lastCleanup := 0, nextId := 1 }
      storeWF_liveStore rfl (by rfl)
      (Or.inl ⟨"connect ECONNREFUSED", rfl⟩)

/-- Witness for C5: a completed concrete call returns no response text
but stats, and the session is still retrievable. -/
theorem claim_C5_done_keeps_session_witness :
    ({ sessionId := idGen 0, done := true, response := none, toolCalls := none,
       stats := some ⟨2, 10⟩ } : ActData).response = none ∧
    ({ sessionId := idGen 0, done := true, response := none, toolCalls := none,
       stats := some ⟨2, 10⟩ } : ActData).stats.isSome = true ∧
    (getSession
      ({ sessionId := idGen 0, done := true, response := none,
         toolCalls := none, stats := some ⟨2, 10⟩ } : ActData).sessionId 5
      (act backendSunny
        { sessionId := none, identifier := some "m", task := some "hi",
          tools := none, toolResults := none, maxTokens := none }
        5 emptyStore).2.1).1.isSome = true :=
  claim_C5_done_keeps_session backendSunny
    { sessionId := none, identifier := some "m", task := some "hi",
      tools := none, toolResults := none, maxTokens := none }
    5 emptyStore storeWF_empty
    { sessionId := idGen 0, done := true, response := none, toolCalls := none,
      stats := some ⟨2, 10⟩ }
    (by rfl) rfl

/-- Witness for C10: two concrete resume calls differing only in
identifier, task, and tools coincide, and a concrete resume mutates the
session only as described. -/
theorem claim_C10_resume_ignores_new_task_inputs_witness :
    (act backendSunny
        { sessionId := some (idGen 0), identifier := some "x", task := some "y",
          tools := some [weatherTool], toolResults := none, maxTokens := none }
        5 liveStore =
      act backendSunny
        { sessionId := some (idGen 0), identifier := none, task := none,
          tools := none, toolResults := none, maxTokens := none }
        5 liveStore) ∧
    ((∃ tail, (tail = ([] : List ChatMessage) ∨
        (∃ c, tail = [⟨Role.assistant, c⟩])) ∧
      mapFind (idGen 0) (act backendSunny
        { sessionId := some (idGen 0), identifier := none, task := none,
          tools := none, toolResults := none, maxTokens := none }
        5 liveStore).2.1.sessions =
        some { id := idGen 0,
               messages := ([] : List ChatMessage) ++ trMessages none ++ tail,
               tools := [], modelId := "m", createdAt := 0,
               lastAccessedAt := 5 }) ∧
     (∀ call ∈ (act backendSunny
        { sessionId := some (idGen 0), identifier := none, task := none,
          tools := none, toolResults := none, maxTokens := none }
        5 liveStore).2.2,
        call = BackendCall.getModelInfo "m" ∨
        call = BackendCall.respond "m" (([] : List ChatMessage) ++ trMessages none)
          (effMaxTokens none))) := by
  constructor
  · exact claim_C10_resume_ignores_new_task_inputs.1 backendSunny
      { sessionId := some (idGen 0), identifier := some "x", task := some "y",
        tools := some [weatherTool], toolResults := none, maxTokens := none }
      { sessionId := some (idGen 0), identifier := none, task := none,
        tools := none, toolResults := none, maxTokens := none }
      5 liveStore (idGen 0) rfl rfl rfl rfl
  · exact claim_C10_resume_ignores_new_task_inputs.2 backendSunny
      { sessionId := some (idGen 0), identifier := none, task := none,
        tools := none, toolResults := none, maxTokens := none }
      5 liveStore (idGen 0)
      { id := idGen 0, messages := [], tools := [], modelId := "m",
        createdAt := 0, lastAccessedAt := 5 }
      { sessions := [(idGen 0,
          { id := idGen 0, messages := [], tools := [], modelId := "m",
            createdAt := 0, lastAccessedAt := 5 })]
        toolSets := [], lastCleanup := 0, nextId := 1 }
      storeWF_liveStore rfl (by rfl)

/-- C8: the response parser yields exactly one tool call named `x` with
arguments `(a: 1)` on the bare JSON input, yields the same list when the
JSON is wrapped in a fenced json code block, treats valid JSON without a
`tool_calls` array as a final answer (no tool calls), swallows malformed
JSON by moving to the fenced-block strategy (here the fence still
yields the calls), and reports no tool calls — rather than an error —
when every strategy fails. -/
theorem claim_C8_parser_cases :
    parseToolCalls tcDirectInput = some [tcExpected] ∧
    parseToolCalls tcFencedInput = some [tcExpected] ∧
    parseToolCalls tcOtherKeyInput = none ∧
    parseToolCalls tcMalformedThenFenced = some [tcExpected] ∧
    parseToolCalls "not json at all" = none := by
  exact ⟨rfl, rfl, rfl, rfl, rfl⟩

/-- C3 counterexample: in end-to-end scenario 2 the resume call yields
done = true, but the session message log then has five messages, not
four as the claim states. -/
theorem claim_C3_counterexample :
    (scenarioTurn1.1.data.map (fun d => d.done)) = some false ∧
    (scenarioTurn1.1.data.map (fun d => (d.toolCalls.map (fun l => l.length)))) =
      some (some 1) ∧
    (scenarioTurn2.1.data.map (fun d => d.done)) = some true ∧
    ((mapFind scenarioSid scenarioTurn2.2.1.sessions).map
      (fun s => s.messages.length)) = some 5 ∧
    ¬(((mapFind scenarioSid scenarioTurn2.2.1.sessions).map
      (fun s => s.messages.length)) = some 4) := by
  exact ⟨rfl, rfl, rfl, rfl, by decide⟩

/-- C3 amended: in end-to-end scenario 2 the first call yields
done = false with the session id, and the resume yields done = true with
the session log holding exactly five messages — system prompt, user
task, assistant tool-call, user tool-result, final assistant — in
strict append order. -/
theorem claim_C3_scenario2_amended :
    (scenarioTurn1.1.data.map (fun d => d.done)) = some false ∧
    (scenarioTurn1.1.data.map (fun d => d.sessionId)) = some scenarioSid ∧
    (scenarioTurn2.1.data.map (fun d => d.done)) = some true ∧
    (mapFind scenarioSid scenarioTurn2.2.1.sessions).map (fun s => s.messages) =
      some [⟨Role.system, buildToolSystemPrompt [weatherTool]⟩,
            ⟨Role.user, "check weather"⟩,
            ⟨Role.assistant, toolCallJson⟩,
            ⟨Role.user, "[get_weather]: sunny"⟩,
            ⟨Role.assistant, "It" ++ apoS ++ "s sunny"⟩] := by
  exact ⟨rfl, rfl, rfl, rfl⟩

/-- C4 counterexample: `getToolSet` is a TTL-sensitive read on the
tool-set store, the sweep interval has long passed, yet the operation
succeeds without sweeping — the expired session record is still
physically present (and still past its TTL) afterwards. -/
theorem claim_C4_counterexample :
    SESSION_TTL_MS < bigNow - staleStore.lastCleanup ∧
    CLEANUP_INTERVAL_MS < bigNow - staleStore.lastCleanup ∧
    (getToolSet "t" bigNow staleStore).1.isSome = true ∧
    ((mapFind (idGen 0) (getToolSet "t" bigNow staleStore).2.sessions).map
      (fun s => decide (SESSION_TTL_MS < bigNow - s.lastAccessedAt))) =
      some true := by
  exact ⟨by decide, by decide, rfl, rfl⟩

/-- C4 amended: the session-store TTL-sensitive operations (create, get,
list, count) do run the overdue sweep first — afterwards no session or
tool-set record is past its TTL — but the tool-set operations do not
trigger the sweep at all: `getToolSet` and `registerToolSet` leave the
session map untouched (`getToolSet` still applies its own per-record TTL
check). -/
theorem claim_C4_sweep_amended :
    (∀ (st : StoreState) (now : Nat), ¬NotDue now st →
      (∀ mid T sp, AllLive now (createSession mid T sp now st).2) ∧
      (∀ sid, AllLive now (getSession sid now st).2) ∧
      AllLive now (listSessions now st).2 ∧
      AllLive now (getSessionCount now st).2) ∧
    (∀ (st : StoreState) (tid : String) (now : Nat),
      (getToolSet tid now st).2.sessions = st.sessions) ∧
    (∀ (st : StoreState) (T : List ToolSchema) (idOpt : Option String) (now : Nat),
      (registerToolSet T idOpt now st).2.sessions = st.sessions) := by
  refine ⟨?_, ?_, ?_⟩
  · intro st now hdue
    have hmc : AllLive now (maybeCleanup now st) := by
      rw [maybeCleanup_due hdue]
      constructor
      · intro p hp
        have hp' : p ∈ List.filter
            (fun p => !decide (now - p.2.lastAccessedAt > SESSION_TTL_MS))
            st.sessions := hp
        exact (keep_eq_true now _).1 (List.mem_filter.mp hp').2
      · intro p hp
        have hp' : p ∈ List.filter
            (fun p => !decide (now - p.2.lastAccessedAt > SESSION_TTL_MS))
            st.toolSets := hp
        exact (keep_eq_true now _).1 (List.mem_filter.mp hp').2
    refine ⟨?_, ?_, hmc, hmc⟩
    · intro mid T sp
      rw [createSession_eq]
      constructor
      · intro p hp
        rcases mem_mapSet hp with rfl | hp'
        · simp
        · exact hmc.1 p hp'
      · exact hmc.2
    · intro sid
      cases hf : mapFind sid (maybeCleanup now st).sessions with
      | none =>
        rw [getSession_eq_none hf]
        exact hmc
      | some s =>
        by_cases hl : now - s.lastAccessedAt ≤ SESSION_TTL_MS
        · rw [getSession_eq_live hf hl]
          constructor
          · intro p hp
            rcases mem_mapSet hp with rfl | hp'
            · simp
            · exact hmc.1 p hp'
          · exact hmc.2
        · rw [getSession_eq_expired hf (Nat.not_le.mp hl)]
          constructor
          · intro p hp
            exact hmc.1 p ((mapDelete_sublist sid _).mem hp)
          · exact hmc.2
  · intro st tid now
    cases hf : mapFind tid st.toolSets with
    | none => simp [getToolSet, hf]
    | some ts =>
      by_cases he : now - ts.lastAccessedAt > SESSION_TTL_MS
      · simp [getToolSet, hf, he]
      · simp [getToolSet, hf, he]
  · intro st T idOpt now
    rfl

/-- Witness for C4's amended theorem at a concrete overdue store: a
session-store count sweeps the expired session, while a tool-set get
leaves the session map untouched. -/
theorem claim_C4_sweep_amended_witness :
    (∀ p ∈ (getSessionCount bigNow staleStore).2.sessions,
      bigNow - p.2.lastAccessedAt ≤ SESSION_TTL_MS) ∧
    (getToolSet "t" bigNow staleStore).2.sessions = staleStore.sessions := by
  constructor
  · exact ((claim_C4_sweep_amended.1 staleStore bigNow
      (by unfold NotDue; decide)).2.2.2).1
  · exact claim_C4_sweep_amended.2.1 staleStore "t" bigNow

/-- Witness for C7: creating a session with the one-element weather tool
list reports toolCount 1 and messageCount 1 (the system message). -/
theorem claim_C7_create_info_roundtrip_witness :
    ((getSessionInfo
        (createSession "m" [weatherTool]
          (if ([weatherTool] : List ToolSchema).length > 0
           then some (buildToolSystemPrompt [weatherTool]) else none)
          0 emptyStore).1.id
        0
        (createSession "m" [weatherTool]
          (if ([weatherTool] : List ToolSchema).length > 0
           then some (buildToolSystemPrompt [weatherTool]) else none)
          0 emptyStore).2).1.map (fun i => (i.toolCount, i.messageCount))) =
      some (([weatherTool] : List ToolSchema).length,
        if ([weatherTool] : List ToolSchema).length = 0 then 0 else 1) :=
  claim_C7_create_info_roundtrip emptyStore 0 "m" [weatherTool] storeWF_empty
